import Mathlib

/-!
Verification of `playground/infrastructure/helper.py`.

This file gives a shallow embedding of the helper module of the Beam
playground CI/CD infrastructure and proves properties of the embedded
definitions.  Python strings are modelled as `List Char` (so that every
definition evaluates inside the kernel), Python's `yaml.safe_load` is
modelled by an executable parser `yamlLoad` for the structured subset of
YAML that the playground tags use (block mappings of plain scalars, with
nesting by indentation), and the cooperative `asyncio` concurrency of
`get_statuses` is modelled by a small-step transition system whose steps
correspond to the suspension points of the coroutines.

Constants that live in `config.py` / `api/v1` (which are not part of the
sources being verified, only imported by them) are modelled from the spec
and marked as such in their doc comments.
-/

/-- Python strings, modelled as lists of characters. -/
abbrev PyString := List Char

/-- Characters stripped by Python's `str.lstrip()` / `str.strip()`
(ASCII whitespace). -/
def pySpace (c : Char) : Bool :=
  c = ' ' || c = '\t' || c = '\n' || c = '\r' || c = '\x0b' || c = '\x0c'

/-- Model of Python `str.lstrip()` (no arguments): drop leading whitespace. -/
def pyLstrip (s : PyString) : PyString := s.dropWhile pySpace

/-- Model of Python `str.strip()`: drop leading and trailing whitespace. -/
def pyStrip (s : PyString) : PyString :=
  ((s.dropWhile pySpace).reverse.dropWhile pySpace).reverse

/-- Fuelled worker for `pyReplace`; the fuel is an upper bound on the length
of the remaining string, so it never runs out when called through
`pyReplace`. -/
def replF (pat rep : List Char) : Nat → List Char → List Char
  | 0, s => s
  | _, [] => []
  | fuel+1, c :: rest =>
    if pat.isPrefixOf (c :: rest) then
      rep ++ replF pat rep fuel (rest.drop (pat.length - 1))
    else c :: replF pat rep fuel rest

/-- Model of Python `str.replace(pat, rep)`: replace every occurrence of
`pat`, scanning left to right, non-overlapping.  (For the empty pattern,
which the helper never uses, the string is returned unchanged.) -/
def pyReplace (s pat rep : PyString) : PyString :=
  if pat = [] then s else replF pat rep s.length s

/-- helper.py lines 209-210: each line of the scanned file is normalized by
`line.replace("//", "").replace("#", "").replace("\t", "    ")`. -/
def formatLine (l : PyString) : PyString :=
  pyReplace (pyReplace (pyReplace l "//".toList []) "#".toList []) "\t".toList "    ".toList

/-- Model of Python `file.readlines()`: split into lines, each keeping its
trailing newline; a final line without a newline is kept as is. -/
def readLines : List Char → List (List Char)
  | [] => []
  | c :: rest =>
    if c = '\n' then ['\n'] :: readLines rest
    else
      match readLines rest with
      | [] => [[c]]
      | l :: ls => (c :: l) :: ls

/-- Split a string on a separator character; the separator is dropped.
(`"a/b".splitOnChar '/' = ["a", "b"]`, like Python `str.split(sep)`.) -/
def splitOnChar (sep : Char) : List Char → List PyString
  | [] => [[]]
  | c :: rest =>
    if c = sep then [] :: splitOnChar sep rest
    else
      match splitOnChar sep rest with
      | [] => [[c]]
      | l :: ls => (c :: l) :: ls

/-- Digit-sequence parser used by `pyInt`: accepts `digit (('_')? digit)*`
(Python 3 allows single underscores between digits).  `sawDigit` records
whether the previous character was a digit. -/
def parseDigitsU : List Char → Bool → Nat → Option Nat
  | [], true, acc => some acc
  | [], false, _ => none
  | c :: cs, sawDigit, acc =>
    if c.isDigit then parseDigitsU cs true (acc * 10 + (c.toNat - 48))
    else if c = '_' && sawDigit then parseDigitsU cs false acc
    else none

/-- Model of Python `int(s)` for ASCII decimal strings: strip whitespace,
optional sign, digits with optional single underscores in between; `none`
models the `ValueError` raised on any other input. -/
def pyInt (s : PyString) : Option Int :=
  match pyStrip s with
  | '+' :: rest => (parseDigitsU rest false 0).map (fun n => (n : Int))
  | '-' :: rest => (parseDigitsU rest false 0).map (fun n => -(n : Int))
  | rest => (parseDigitsU rest false 0).map (fun n => (n : Int))

/-- helper.py lines 169-176: the concurrency limit actually used by
`get_statuses`.  `env` is the value of the `BEAM_CONCURRENCY` environment
variable (`none` when unset, raising `KeyError` in the code), `dflt` the
caller-supplied `concurrency` argument.  `int(...)` raising `ValueError`
(modelled by `pyInt = none`) is swallowed by the `except` clause, keeping
the default; the function itself never raises. -/
def effectiveConcurrency (env : Option PyString) (dflt : Int) : Int :=
  match env with
  | none => dflt
  | some s =>
    match pyInt s with
    | none => dflt
    | some n => n

/-! ### Paths and `_check_no_nested`

`pathlib.PurePath` (POSIX flavour) is modelled by its `parts` tuple: the
list of path components, with a root marker `"/"` (or `"//"`, which POSIX
`pathlib` keeps separate) as the first component for absolute paths.
Empty and `"."` components are dropped, exactly as `PurePath` does.
Comparison of `PurePath`s (used by `sorted` in `_check_no_nested`) is, in
the Python versions contemporary to this code (`<= 3.11`), lexicographic
comparison of the `_cparts` component lists, with components compared as
strings by code point. -/

/-- The `parts` of `pathlib.PurePath(s)` (POSIX flavour). -/
def pathParts (s : PyString) : List PyString :=
  let comps := (splitOnChar '/' s).filter (fun c => c ≠ [] && c ≠ ['.'])
  if ("//".toList).isPrefixOf s && !("///".toList).isPrefixOf s then "//".toList :: comps
  else if s.head? = some '/' then "/".toList :: comps
  else comps

/-- Length of the anchor of a parts list: `1` for an absolute path (whose
parts begin with the root), `0` for a relative one.  `PurePath.parents`
stops at the anchor, so the parents of `p` are exactly the strict prefixes
of its parts of length at least `anchorLen p`. -/
def anchorLen (p : List PyString) : Nat :=
  match p.head? with
  | some r => if r = "/".toList ∨ r = "//".toList then 1 else 0
  | none => 0

/-- helper.py line 103, `dir1 in [dir2, *dir2.parents]`: `d1` equals `d2`
or is one of its parents, i.e. `d1.parts` is a prefix of `d2.parts` no
shorter than `d2`'s anchor. -/
def inParentsOrSelf (d1 d2 : List PyString) : Bool :=
  d1.isPrefixOf d2 && decide (anchorLen d2 ≤ d1.length)

/-- Python string `<` on our `List Char` model: lexicographic by code
point. -/
def strLt : PyString → PyString → Bool
  | [], [] => false
  | [], _ :: _ => true
  | _ :: _, [] => false
  | a :: as, b :: bs => if a < b then true else if a = b then strLt as bs else false

/-- Python list `<=` on parts lists (lexicographic over string `<`), the
order by which `sorted` arranges `PurePath`s. -/
def partsLe : List PyString → List PyString → Bool
  | [], _ => true
  | _ :: _, [] => false
  | x :: xs, y :: ys => if strLt x y then true else if x = y then partsLe xs ys else false

/-- helper.py lines 94-104 (`_check_no_nested`): sort the subdirs as
`PurePath`s and test each adjacent pair with
`dir1 in [dir2, *dir2.parents]`.  Returns `true` iff the `ValueError`
("... is a subdirectory of ...") is raised.  Python's `sorted` is modelled
by insertion sort with respect to the same total order, which produces the
identical list (equal elements of the parts-list model are literally
equal). -/
def _check_no_nested (subdirs : List PyString) : Bool :=
  let sorted := List.insertionSort (fun a b => partsLe a b = true) (subdirs.map pathParts)
  (sorted.zip sorted.tail).any (fun p => inParentsOrSelf p.1 p.2)

/-! ### YAML model

`yaml.safe_load` is modelled by an executable parser for the structured
subset the playground tags use: block mappings of plain scalars with
nesting by indentation, plain multi-line scalars, and the empty document.
Sequences, quoting, flow style, comments and floats are outside the
modelled subset.  A `none` result models a raised `YAMLError`. -/

/-- Values produced by the YAML model (plus `list`, which real YAML
sequences produce and which the tag validator inspects even though the
parser subset here does not build it). -/
inductive YVal where
  | null
  | bool (b : Bool)
  | int (n : Int)
  | str (s : PyString)
  | list (items : List YVal)
  | map (entries : List (PyString × YVal))

/-- One non-blank line of a YAML document: its indentation (number of
leading spaces) and its content with surrounding spaces removed. -/
structure YLine where
  indent : Nat
  content : PyString
  deriving DecidableEq

/-- Split a candidate document into `YLine`s, dropping blank lines. -/
def toYLines (s : PyString) : List YLine :=
  (splitOnChar '\n' s).filterMap fun l =>
    let noLead := l.dropWhile (· = ' ')
    let c := (noLead.reverse.dropWhile (· = ' ')).reverse
    if c = [] then none else some ⟨l.length - noLead.length, c⟩

/-- Find the first `": "` in a line, returning the text before and after
it. -/
def splitColonSpace : PyString → Option (PyString × PyString)
  | [] => none
  | ':' :: ' ' :: rest => some ([], rest)
  | c :: rest => (splitColonSpace rest).map (fun p => (c :: p.1, p.2))

/-- Recognize a line as a mapping entry `key: value` or `key:`; `none`
when the line is not an entry (a plain scalar line) or is malformed as an
entry (empty key, a second `": "` or a trailing `:` inside the value,
which real YAML rejects). -/
def yEntry (c : PyString) : Option (PyString × Option PyString) :=
  match splitColonSpace c with
  | some (k, v) =>
    let k' := (k.reverse.dropWhile (· = ' ')).reverse
    if k' = [] then none
    else if (splitColonSpace v).isSome then none
    else
      let v' := pyStrip v
      if v' = [] then some (k', none)
      else if v'.getLast? = some ':' then none
      else some (k', some v')
  | none =>
    if c.getLast? = some ':' then
      let k := c.dropLast
      if k = [] then none else some (k, none)
    else none

/-- Plain-scalar resolution (YAML 1.1 subset: booleans, null, decimal
integers; everything else is a string). -/
def yScalar (v : PyString) : YVal :=
  if v = "true".toList ∨ v = "True".toList then .bool true
  else if v = "false".toList ∨ v = "False".toList then .bool false
  else if v = "null".toList ∨ v = "~".toList then .null
  else
    match pyInt v with
    | some n => .int n
    | none => .str v

/-- Join consecutive plain-scalar lines into one scalar (YAML folds the
line breaks of a multi-line plain scalar into single spaces). -/
def joinScalars : List YLine → PyString
  | [] => []
  | [l] => l.content
  | l :: rest => l.content ++ ' ' :: joinScalars rest

mutual

/-- Parse a block mapping whose entries sit at indentation `i`; an entry
`key:` with following deeper-indented lines takes those lines as its
nested sub-document.  A line at the wrong indentation or a non-entry line
is a parse error.  The fuel only bounds the recursion and is never
exhausted when called through `yamlLoad`. -/
def parseMapF : Nat → Nat → List YLine → Option (List (PyString × YVal))
  | 0, _, _ => none
  | _, _, [] => some []
  | fuel+1, i, l :: rest =>
    if l.indent = i then
      match yEntry l.content with
      | none => none
      | some (k, some v) =>
        match parseMapF fuel i rest with
        | some m => some ((k, yScalar v) :: m)
        | none => none
      | some (k, none) =>
        let children := rest.takeWhile (fun c => i < c.indent)
        let rest' := rest.dropWhile (fun c => i < c.indent)
        match parseSubF fuel children, parseMapF fuel i rest' with
        | some v, some m => some ((k, v) :: m)
        | _, _ => none
    else none

/-- Parse a sub-document: empty is `null`; one starting with an entry line
is a block mapping; all-scalar lines fold into one plain scalar; an entry
line after a scalar line is a parse error. -/
def parseSubF : Nat → List YLine → Option YVal
  | 0, _ => none
  | _, [] => some .null
  | fuel+1, c :: cs =>
    if (yEntry c.content).isSome then
      (parseMapF fuel c.indent (c :: cs)).map .map
    else if (c :: cs).all (fun x => (yEntry x.content).isNone) then
      some (.str (joinScalars (c :: cs)))
    else none

end

/-- Model of `yaml.load(s, Loader=yaml.SafeLoader)` on the subset
described above; `none` models a `YAMLError`. -/
def yamlLoad (s : PyString) : Option YVal :=
  parseSubF (2 * (toYLines s).length + 2) (toYLines s)

/-- Modelled from the spec: `Config.BEAM_PLAYGROUND_TITLE` from
`config.py` (not part of the verified sources): the fixed marker line,
including its trailing newline, that opens a playground tag. -/
def BEAM_PLAYGROUND_TITLE : PyString := "beam-playground:\n".toList

/-- Modelled from the spec: `Config.BEAM_PLAYGROUND` from `config.py`: the
designated top-level key under which the tag's fields live. -/
def BEAM_PLAYGROUND : PyString := "beam-playground".toList

/-- Python `dict` lookup for a mapping built from an association list with
later keys overwriting earlier ones (as PyYAML builds its dicts). -/
def dictGet (k : PyString) (es : List (PyString × YVal)) : Option YVal :=
  es.foldl (fun acc e => if e.1 = k then some e.2 else acc) none

/-- helper.py 85-91: the `ExampleTag` dataclass.  `tag_as_dict` is the
value stored under the `beam-playground` key (a Python dict, or `None`
for a bare marker, modelled by `YVal`). -/
structure ExampleTag where
  tag_as_dict : YVal
  tag_as_string : PyString

/-- helper.py 216-223: the accumulating state of `get_tag`.  `ys` is
`yaml_string` (formatted text, seeded with the marker line), `ts` is
`tag_string` (original text); each further line is kept exactly when the
candidate `ys ++ formatLine l` still parses, and the loop breaks at the
first failure. -/
def getTagLoop : List PyString → PyString → PyString → PyString × PyString
  | [], ys, ts => (ys, ts)
  | l :: rest, ys, ts =>
    let cand := ys ++ formatLine l
    if (yamlLoad cand).isSome then getTagLoop rest cand (ts ++ l)
    else (ys, ts)

/-- helper.py 211-215: scan for the marker line, i.e. the first line whose
formatted, left-stripped form equals `BEAM_PLAYGROUND_TITLE`; return it
together with the lines after it. -/
def findMarker : List PyString → Option (PyString × List PyString)
  | [] => none
  | l :: rest =>
    if pyLstrip (formatLine l) = BEAM_PLAYGROUND_TITLE then some (l, rest)
    else findMarker rest

/-- helper.py 190-229 (`get_tag`), over the `readlines` of the file: find
the marker, accumulate while the candidate parses, then parse the final
`yaml_string` and return the value under the `beam-playground` key
together with the exact original text consumed.  The `none` fallthrough
branches model the `KeyError`/`TypeError` the code would raise if the
final parse were not a mapping containing the key; they are unreachable
because `yaml_string` always starts with the marker line and parsed at
every step. -/
def get_tag (lines : List PyString) : Option ExampleTag :=
  match findMarker lines with
  | none => none
  | some (marker, rest) =>
    let ys0 := pyLstrip (formatLine marker)
    let (ys, ts) := getTagLoop rest ys0 marker
    match yamlLoad ys with
    | some (.map m) =>
      match dictGet BEAM_PLAYGROUND m with
      | some v => some ⟨v, ts⟩
      | none => none
    | _ => none

/-- The accumulation as §4.1 of the spec words it: the candidate that is
probed at each line is the accumulated block *without the marker line*
(the loop is seeded with the empty string instead of the marker).
Defined only to compare against the code's behaviour (claim C4); returns
the final `(yaml_string, tag_string)` pair. -/
def getTagAccumSpec (lines : List PyString) : Option (PyString × PyString) :=
  match findMarker lines with
  | none => none
  | some (marker, rest) => some (getTagLoop rest [] marker)

/-! ### Tag validation (`_validate`) -/

/-- Model of Python `str.lower()` (ASCII). -/
def pyLower (s : PyString) : PyString := s.map Char.toLower

/-- Model of Python `str.upper()` (ASCII). -/
def pyUpper (s : PyString) : PyString := s.map Char.toUpper

/-- Decimal rendering of an integer, as Python `str(..)` prints it. -/
def intRepr (n : Int) : PyString :=
  if n < 0 then '-' :: Nat.toDigits 10 n.natAbs else Nat.toDigits 10 n.natAbs

/-- Model of Python `str(v)` for the values a tag can hold.  Containers
are rendered by a placeholder: the validator only ever asks whether the
lower-cased rendering is `"true"`/`"false"`, which no container rendering
is (Python renders them with brackets). -/
def pyStrOf : YVal → PyString
  | .null => "None".toList
  | .bool true => "True".toList
  | .bool false => "False".toList
  | .int n => intRepr n
  | .str s => s
  | .list _ => "[...]".toList
  | .map _ => "dict(...)".toList

/-- `str(tag.get(f))`: a missing key prints as `None`. -/
def pyStrOfOpt : Option YVal → PyString
  | none => "None".toList
  | some v => pyStrOf v

/-- Modelled from the spec: the field-name constants of `config.TagFields`
(the twelve fields, also listed in the `Tag` namedtuple, helper.py
42-58). -/
def tagFieldNames : List PyString :=
  ["name".toList, "complexity".toList, "emulators".toList, "datasets".toList,
   "description".toList, "multifile".toList, "categories".toList,
   "pipeline_options".toList, "default_example".toList, "context_line".toList,
   "tags".toList, "url_notebook".toList]

/-- Modelled from the spec (§6): `config.OptionalTagFields`. -/
def optionalTagFieldNames : List PyString :=
  ["emulators".toList, "datasets".toList, "url_notebook".toList]

/-- helper.py 361-366: the required fields are the `TagFields` minus the
`OptionalTagFields`.  The code iterates them as a Python `set`, whose
order is unspecified; the model fixes the declaration order. -/
def requiredTagFields : List PyString :=
  tagFieldNames.filter (fun f => !optionalTagFieldNames.contains f)

/-- The errors `_validate` logs, in order of the `logging.error` calls. -/
inductive VErr where
  | missingField (f : PyString)
  | emptyField (f : PyString)
  | badMultifile
  | badCategoriesType
  | unsupportedCategory (c : PyString)
  | badContextLine
  deriving DecidableEq

/-- helper.py line 380: `value == "" or value is None`. -/
def isEmptyVal : Option YVal → Bool
  | some (.str []) => true
  | some .null => true
  | _ => false

/-- helper.py 368-385: the required-fields loop.  A missing field logs an
error and clears `valid`; then, guarded by `if valid is True`, an empty
value (`""` or `None`) in any field but `pipeline_options` logs an error
and clears `valid`.  The guard means that after the first violation the
emptiness checks of the remaining fields are skipped, while the missing-
field checks still run. -/
def checkRequired (tag : List (PyString × YVal)) :
    List PyString → Bool → List VErr → Bool × List VErr
  | [], valid, errs => (valid, errs)
  | f :: fs, valid, errs =>
    let (valid, errs) :=
      if (dictGet f tag).isNone then (false, errs ++ [.missingField f])
      else (valid, errs)
    let (valid, errs) :=
      if valid then
        if isEmptyVal (dictGet f tag) && !(f == "pipeline_options".toList) then
          (false, errs ++ [.emptyField f])
        else (valid, errs)
      else (valid, errs)
    checkRequired tag fs valid errs

/-- helper.py 391-392: `str(multifile).lower()` must be `"true"` or
`"false"`. -/
def multifileOk (tag : List (PyString × YVal)) : Bool :=
  let s := pyLower (pyStrOfOpt (dictGet "multifile".toList tag))
  s == "true".toList || s == "false".toList

/-- Python `category not in supported_categories`, negated: an element of
the categories list passes exactly when it is a string that occurs in the
supported list. -/
def categoryOk (supported : List PyString) : YVal → Bool
  | .str s => supported.contains s
  | _ => false

/-- helper.py 410-419: the loop over the categories list, logging one
error per unsupported element. -/
def checkCategoriesList (supported : List PyString) :
    List YVal → Bool → List VErr → Bool × List VErr
  | [], valid, errs => (valid, errs)
  | c :: cs, valid, errs =>
    if categoryOk supported c then checkCategoriesList supported cs valid errs
    else checkCategoriesList supported cs false (errs ++ [.unsupportedCategory (pyStrOf c)])

/-- helper.py 390-398: the multifile check, threading the `valid`/error
state like the code does. -/
def multifileCheck (tag : List (PyString × YVal)) (valid : Bool) (errs : List VErr) :
    Bool × List VErr :=
  if multifileOk tag then (valid, errs) else (false, errs ++ [VErr.badMultifile])

/-- helper.py 400-419: the categories check: a non-list value logs a type
error; a list is scanned element-wise by `checkCategoriesList`. -/
def categoriesCheck (supported : List PyString) (tag : List (PyString × YVal))
    (valid : Bool) (errs : List VErr) : Bool × List VErr :=
  match dictGet "categories".toList tag with
  | some (.list cs) => checkCategoriesList supported cs valid errs
  | _ => (false, errs ++ [VErr.badCategoriesType])

/-- helper.py 421-430: the context-line check; `isinstance(.., int)`
accepts Python booleans (a subclass of `int`). -/
def contextCheck (tag : List (PyString × YVal)) (valid : Bool) (errs : List VErr) :
    Bool × List VErr :=
  match dictGet "context_line".toList tag with
  | some (.int _) => (valid, errs)
  | some (.bool _) => (valid, errs)
  | _ => (false, errs ++ [VErr.badContextLine])

/-- helper.py 345-431 (`_validate`), additionally returning the list of
logged errors, in logging order.  The code returns early after the
required-fields stage when it failed; otherwise the multifile, categories
and context-line checks all run, each logging its own errors. -/
def _validate (tag : List (PyString × YVal)) (supported : List PyString) :
    Bool × List VErr :=
  let s1 := checkRequired tag requiredTagFields true []
  if s1.1 = false then s1
  else
    let s2 := multifileCheck tag s1.1 s1.2
    let s3 := categoriesCheck supported tag s2.1 s2.2
    contextCheck tag s3.1 s3.2

/-- The error the multifile check alone contributes (helper.py 390-398),
stated independently of the other checks. -/
def multifileErrs (tag : List (PyString × YVal)) : List VErr :=
  if multifileOk tag then [] else [.badMultifile]

/-- The errors the categories check alone contributes (helper.py
400-419): a type error when the value is not a list, else one error per
unsupported element. -/
def categoriesErrs (tag : List (PyString × YVal)) (supported : List PyString) :
    List VErr :=
  match dictGet "categories".toList tag with
  | some (.list cs) =>
    (cs.filter (fun c => !categoryOk supported c)).map (fun c => .unsupportedCategory (pyStrOf c))
  | _ => [.badCategoriesType]

/-- The error the context-line check alone contributes (helper.py
421-430). -/
def contextLineErrs (tag : List (PyString × YVal)) : List VErr :=
  match dictGet "context_line".toList tag with
  | some (.int _) => []
  | some (.bool _) => []
  | _ => [.badContextLine]

/-! ### Example records and `_get_example` / `_check_file` -/

/-- Modelled from the spec: the SDK enum of `api.v1.api_pb2`. -/
inductive Sdk where
  | unspecified
  | java
  | go
  | python
  | scio
  deriving DecidableEq

/-- The job-status enum of `api.v1.api_pb2` (modelled from the spec §6):
the four statuses the polling loop waits on plus terminal variants. -/
inductive Status where
  | unspecified
  | validating
  | preparing
  | compiling
  | executing
  | finished
  | runError
  | timeout
  | cancelled
  deriving DecidableEq

/-- helper.py 481-484: the statuses on which `_update_example_status`
keeps polling; every other status is terminal for the loop. -/
def Status.isPolling : Status → Bool
  | .validating | .preparing | .compiling | .executing => true
  | _ => false

/-- `api_pb2.PrecompiledObjectType`. -/
inductive ObjectType where
  | unspecified
  | plainExample
  | kata
  | unitTest
  deriving DecidableEq

/-- Modelled from the spec (§3 `DatasetRef`): `config.Dataset`. -/
structure Dataset where
  name : PyString
  location : PyString
  format : PyString
  path : PyString
  deriving DecidableEq

/-- The topic of an emulator reference. -/
structure EmulatorTopic where
  id : PyString
  dataset : PyString
  deriving DecidableEq

/-- Modelled from the spec (§3 `EmulatorRef`): `config.Emulator`. -/
structure Emulator where
  name : PyString
  topic : EmulatorTopic
  deriving DecidableEq

/-- helper.py 42-58: the `Tag` namedtuple, with its declared defaults
(`False` for `multifile` and `default_example`, `None` elsewhere). -/
structure Tag where
  name : YVal := .null
  complexity : YVal := .null
  emulators : YVal := .null
  datasets : YVal := .null
  description : YVal := .null
  multifile : YVal := .bool false
  categories : YVal := .null
  pipeline_options : YVal := .null
  default_example : YVal := .bool false
  context_line : YVal := .null
  tags : YVal := .null
  url_notebook : YVal := .null

/-- helper.py 61-82: the `Example` dataclass. -/
structure Example where
  name : PyString
  complexity : PyString
  sdk : Sdk
  filepath : PyString
  code : PyString
  status : Status
  tag : Tag
  url_vcs : PyString
  url_notebook : Option PyString := none
  logs : PyString := []
  type : ObjectType := .unspecified
  pipeline_id : PyString := []
  output : PyString := []
  compile_output : PyString := []
  graph : PyString := []
  datasets : List Dataset := []
  emulators : List Emulator := []

/-- Modelled from the spec: `Config.SDK_TO_EXTENSION` from `config.py`;
`none` models the `KeyError` on an SDK without a configured extension. -/
def sdkToExtension : Sdk → Option PyString
  | .java => some "java".toList
  | .go => some "go".toList
  | .python => some "py".toList
  | .scio => some "scala".toList
  | .unspecified => none

/-- Modelled from the spec: `Config.EXTENSION_TO_SDK` from `config.py`;
`none` models the `KeyError` on an unknown extension. -/
def extensionToSdk (ext : PyString) : Option Sdk :=
  if ext == "java".toList then some .java
  else if ext == "go".toList then some .go
  else if ext == "py".toList then some .python
  else if ext == "scala".toList then some .scio
  else none

/-- Modelled from the spec: `config.PrecompiledExampleType.test_ends`. -/
def testEnds : List PyString := ["test".toList, "it".toList]

/-- `filepath.split(os.extsep)[-1]` (helper.py 253, 303): the text after
the last dot (the whole string when there is no dot). -/
def lastExt (s : PyString) : PyString := ((splitOnChar '.' s).getLast?).getD []

/-- Join components with a separator character (inverse of
`splitOnChar`). -/
def joinWithChar (sep : Char) : List PyString → PyString
  | [] => []
  | [x] => x
  | x :: xs => x ++ sep :: joinWithChar sep xs

/-- `os.path.splitext(filename)[0]` (helper.py 500): the filename without
its last extension.  (The model drops the text after the last dot
whenever there is one; `splitext`'s special case for dot-files does not
matter for the suffix test this feeds.) -/
def splitExtBase (filename : PyString) : PyString :=
  match splitOnChar '.' filename with
  | [] => filename
  | [x] => x
  | parts => joinWithChar '.' parts.dropLast

/-- helper.py 490-509 (`_get_object_type`): unit test by filename suffix,
else kata / example by path segment, else unspecified. -/
def _get_object_type (filename filepath : PyString) : ObjectType :=
  let filenameNoExt := pyLower (splitExtBase filename)
  if testEnds.any (fun e => e.isSuffixOf filenameNoExt) then .unitTest
  else if (splitOnChar '/' filepath).contains "katas".toList then .kata
  else if (splitOnChar '/' filepath).contains "examples".toList then .plainExample
  else .unspecified

/-- Modelled from the spec: `Config.URL_VCS_PREFIX` from `config.py`. -/
def URL_VCS_PREFIX : PyString := "https://github.com/apache/beam/blob/master".toList

/-- Modelled from the spec (§6, "VCS URL derivation"): `_get_url_vcs`
(helper.py 280-286) joins the fixed prefix with the example's path
relative to the configured root.  The relative-path computation reads the
`BEAM_ROOT_DIR` environment variable and the process working directory;
the model abstracts it to the file path itself (a pure string transform,
nonempty whenever the path is). -/
def _get_url_vcs (filepath : PyString) : PyString :=
  URL_VCS_PREFIX ++ '/' :: filepath

/-- Python `dict` update `d[k] = v`: overwrite in place when the key
exists, else append. -/
def dictSet (d : List (PyString × YVal)) (k : PyString) (v : YVal) :
    List (PyString × YVal) :=
  if (d.map Prod.fst).contains k then
    d.map (fun e => if e.1 = k then (k, v) else e)
  else d ++ [(k, v)]

/-- `Tag(**d)` (helper.py 317): build the namedtuple from keyword
arguments, using the declared defaults for absent fields; `none` models
the `TypeError` on a keyword that is not a `Tag` field. -/
def buildTag (d : List (PyString × YVal)) : Option Tag :=
  if d.all (fun e => tagFieldNames.contains e.1) then
    some {
      name := (dictGet "name".toList d).getD .null
      complexity := (dictGet "complexity".toList d).getD .null
      emulators := (dictGet "emulators".toList d).getD .null
      datasets := (dictGet "datasets".toList d).getD .null
      description := (dictGet "description".toList d).getD .null
      multifile := (dictGet "multifile".toList d).getD (.bool false)
      categories := (dictGet "categories".toList d).getD .null
      pipeline_options := (dictGet "pipeline_options".toList d).getD .null
      default_example := (dictGet "default_example".toList d).getD (.bool false)
      context_line := (dictGet "context_line".toList d).getD .null
      tags := (dictGet "tags".toList d).getD .null
      url_notebook := (dictGet "url_notebook".toList d).getD .null }
  else none

/-- The string at key `k` of a mapping (empty when absent or not a
string). -/
def strAt (k : String) (m : List (PyString × YVal)) : PyString :=
  match dictGet k.toList m with
  | some (.str s) => s
  | _ => []

/-- `Dataset.from_dict` plus the `dataset.name = key` assignment
(helper.py 326-329); `config.Dataset.from_dict` is modelled from the spec
(§3): the string fields are taken from the per-dataset mapping, defaulting
to empty (an empty field is then rejected by
`validate_example_fields`). -/
def datasetFromDict (nm : PyString) (v : YVal) : Option Dataset :=
  match v with
  | .map m => some { name := nm, location := strAt "location" m,
                     format := strAt "format" m, path := strAt "path" m }
  | _ => none

/-- `Emulator.from_dict` plus the `emulator.name = key` assignment
(helper.py 335-338), modelled from the spec (§3). -/
def emulatorFromDict (nm : PyString) (v : YVal) : Option Emulator :=
  match v with
  | .map m =>
    match dictGet "topic".toList m with
    | some (.map tm) =>
      some { name := nm, topic := { id := strAt "id" tm, dataset := strAt "dataset" tm } }
    | _ => none
  | _ => none

/-- helper.py 323-330: when the (updated) tag dict has a truthy `datasets`
value, it must be a mapping, and each entry becomes a `Dataset` named
after its key; falsy values leave the record untouched; a truthy
non-mapping crashes (`none`). -/
def exWithDatasets (d : List (PyString × YVal)) (ex : Example) : Option Example :=
  match dictGet "datasets".toList d with
  | none => some ex
  | some .null => some ex
  | some (.bool false) => some ex
  | some (.int 0) => some ex
  | some (.str []) => some ex
  | some (.list []) => some ex
  | some (.map []) => some ex
  | some (.map es) => (es.mapM (fun e => datasetFromDict e.1 e.2)).map
      (fun ds => { ex with datasets := ds })
  | some _ => none

/-- helper.py 332-339: the emulators counterpart of `exWithDatasets`. -/
def exWithEmulators (d : List (PyString × YVal)) (ex : Example) : Option Example :=
  match dictGet "emulators".toList d with
  | none => some ex
  | some .null => some ex
  | some (.bool false) => some ex
  | some (.int 0) => some ex
  | some (.str []) => some ex
  | some (.list []) => some ex
  | some (.map []) => some ex
  | some (.map es) => (es.mapM (fun e => emulatorFromDict e.1 e.2)).map
      (fun ems => { ex with emulators := ems })
  | some _ => none

/-- helper.py 527-561 (`validate_example_fields`): `false` models the
`ValidationException` being raised. -/
def validate_example_fields (e : Example) : Bool :=
  !e.filepath.isEmpty && !e.name.isEmpty && !(e.sdk == .unspecified) &&
  !e.code.isEmpty && !e.url_vcs.isEmpty && !e.complexity.isEmpty &&
  !(!e.datasets.isEmpty && e.emulators.isEmpty) &&
  !(!e.emulators.isEmpty && e.datasets.isEmpty) &&
  e.datasets.all (fun d =>
    !d.location.isEmpty && !d.format.isEmpty && d.location == "local".toList &&
    (d.format == "json".toList || d.format == "avro".toList)) &&
  e.emulators.all (fun em =>
    em.name == "kafka".toList && (e.datasets.map (fun d => d.name)).contains em.topic.dataset)

/-- Number of occurrences of a character (Python `s.count(c)` for a
single-character needle). -/
def countChar (c : Char) (s : PyString) : Nat := s.countP (· = c)

/-- helper.py 288-342 (`_get_example`).  The file read at lines 305-306 is
passed in as `content`; `none` models an uncaught exception: a `KeyError`
on a missing `name`/`complexity`/`context_line` key or an unknown
extension, a `TypeError` in `context_line -= ...` or `Tag(**...)`, a crash
in the datasets/emulators conversion, or the `ValidationException` of
`validate_example_fields`.  Tags whose `name`/`complexity` values are not
strings are outside the model (also mapped to `none`). -/
def _get_example (filepath filename content : PyString) (tag : ExampleTag) :
    Option Example :=
  match tag.tag_as_dict with
  | .map d =>
    match dictGet "name".toList d, dictGet "complexity".toList d with
    | some (.str nm), some (.str cx) =>
      let url_notebook :=
        match dictGet "url_notebook".toList d with
        | some (.str s) => some s
        | _ => none
      match extensionToSdk (lastExt filename) with
      | some sdk =>
        let objType := _get_object_type filename filepath
        let code := pyReplace content tag.tag_as_string []
        match dictGet "context_line".toList d with
        | some (.int n) =>
          let d' := dictSet d "context_line".toList
            (.int (n - Int.ofNat (countChar '\n' tag.tag_as_string)))
          match buildTag d' with
          | some t =>
            let ex0 : Example :=
              { name := nm, complexity := cx, sdk := sdk, filepath := filepath,
                code := code, status := .unspecified, tag := t, type := objType,
                url_vcs := _get_url_vcs filepath, url_notebook := url_notebook }
            match exWithDatasets d' ex0 with
            | some ex1 =>
              match exWithEmulators d' ex1 with
              | some ex2 => if validate_example_fields ex2 then some ex2 else none
              | none => none
            | none => none
          | none => none
        | _ => none
      | none => none
    | _, _ => none
  | _ => none

/-- helper.py 232-263 (`_check_file`).  The file system is abstracted by
passing the content of `filepath`; `none` models an uncaught exception
(an SDK without a configured extension, a non-dict tag reaching
`_validate`, or a crash inside `_get_example`).  Returns `(has_error,
examples')` with `examples'` the examples list after a possible append. -/
def _check_file (examples : List Example) (filename filepath content : PyString)
    (supported : List PyString) (sdk : Sdk) : Option (Bool × List Example) :=
  if "infrastructure/helper.py".toList.isSuffixOf filepath then some (false, examples)
  else
    match sdkToExtension sdk with
    | none => none
    | some ext =>
      if lastExt filepath == ext then
        match get_tag (readLines content) with
        | none => some (false, examples)
        | some tag =>
          match tag.tag_as_dict with
          | .map d =>
            if (_validate d supported).1 = false then some (true, examples)
            else
              match _get_example filepath filename content tag with
              | none => none
              | some ex => some (false, examples ++ [ex])
          | _ => none
      else some (false, examples)

/-! ### The status-polling engine (`get_statuses`, `_update_example_status`)

`asyncio`'s cooperative concurrency is modelled by a small-step
transition system: one task per example, one step per resumption of a
coroutine between suspension points, interleaved in any order.  The GRPC
backend is abstracted by a per-task script: the outcome of `run_code` and
the successive outcomes of `check_status`. -/

/-- One remote call's outcome: a value, or a raised exception. -/
inductive CallResult (α : Type) where
  | ok (value : α)
  | exn
  deriving DecidableEq

/-- The scripted backend interaction of one task. -/
structure ClientScript where
  submit : CallResult PyString
  statuses : List (CallResult Status)
  deriving DecidableEq

/-- helper.py 463-475: the optional dataset payload for `run_code`: only
when the example has both datasets and emulators, built from the *first*
of each. -/
structure ApiDataset where
  emulatorType : PyString
  topicId : PyString
  datasetPath : PyString
  deriving DecidableEq

/-- helper.py 463-475 (`datasets` in `_update_example_status`). -/
def buildDatasetPayload (e : Example) : List ApiDataset :=
  match e.datasets, e.emulators with
  | d :: _, em :: _ =>
    [⟨"EMULATOR_TYPE_".toList ++ pyUpper em.name, em.topic.id, d.path⟩]
  | _, _ => []

/-- helper.py 480-486: the status-polling loop, driven by the scripted
`check_status` results: keep polling while the status is in the polling
set, then store the first other status.  `none` models an exception from
`check_status` (or a script that ends while still polling, i.e. a backend
that never answers: the real loop would never terminate). -/
def pollLoop (e : Example) : List (CallResult Status) → Option Example
  | [] => none
  | .exn :: _ => none
  | .ok st :: rest =>
    if st.isPolling then pollLoop e rest else some { e with status := st }

/-- helper.py 449-487 (`_update_example_status`), sequentially: build the
dataset payload, submit the code (storing `pipeline_id` on success), then
poll until a non-polling status arrives and store it.  `none` models the
exception propagating out of the coroutine. -/
def _update_example_status (e : Example) (client : ClientScript) : Option Example :=
  let _payload := buildDatasetPayload e
  match client.submit with
  | .exn => none
  | .ok pid => pollLoop { e with pipeline_id := pid } client.statuses

/-- The phase of one `_semaphored_task` coroutine (helper.py 178-183):
`waiting` until `semaphore.acquire()` returns; `submitting` while
`run_code` is in flight; `polling rest` inside the status loop, with
`rest` the scripted statuses not yet served; `done` after the terminal
status was stored and the slot released; `failed` after an exception (the
slot is then released by the `finally`). -/
inductive TaskPhase where
  | waiting
  | submitting
  | polling (rest : List (CallResult Status))
  | done
  | failed
  deriving DecidableEq

/-- A phase past `semaphore.acquire()` and before the release: the task
holds a slot and its `_update_example_status` call is in flight. -/
def TaskPhase.inFlight : TaskPhase → Bool
  | .submitting | .polling _ => true
  | _ => false

/-- The task's coroutine has finished (normally or by an exception). -/
def TaskPhase.ended : TaskPhase → Bool
  | .done | .failed => true
  | _ => false

/-- One task of the batch: its example record (mutated in place by the
coroutine), its backend script, and its current phase. -/
structure TaskState where
  ex : Example
  script : ClientScript
  phase : TaskPhase

/-- The global state of a `get_statuses` call: the semaphore counter, the
per-example tasks, and whether the awaited `tqdm.gather(*tasks)` has
completed (normally or by propagating an exception). -/
structure PollState where
  sem : Nat
  tasks : List TaskState
  gatherDone : Bool

/-- helper.py 160-187: the state right after `get_statuses` created the
semaphore (at the effective concurrency `n`) and the coroutines, with the
gather still pending. -/
def initState (examples : List Example) (scripts : List ClientScript) (n : Nat) :
    PollState :=
  ⟨n, (examples.zip scripts).map (fun p => ⟨p.1, p.2, .waiting⟩), false⟩

/-- Small-step interleaving semantics of `get_statuses` (helper.py
160-187) with `_update_example_status` (449-487) inlined into each task:
every constructor is one resumption of one coroutine between suspension
points.  `semaphore.acquire()` (line 179) resumes only while the counter
is positive and decrements it; `semaphore.release()` (line 183) runs in a
`finally`, so both normal completion and an exception increment the
counter.  `tqdm.gather` wraps `asyncio`'s gather/as_completed semantics:
it completes normally once every task has ended, and completes by
propagating the first exception as soon as some task has failed, without
cancelling the remaining tasks (which keep stepping afterwards). -/
inductive PollStep : PollState → PollState → Prop where
  | acquire (s : PollState) (i : Nat) (t : TaskState)
      (ht : s.tasks.get? i = some t) (hw : t.phase = .waiting) (hs : s.sem ≠ 0) :
      PollStep s ⟨s.sem - 1, s.tasks.set i { t with phase := .submitting }, s.gatherDone⟩
  | submitOk (s : PollState) (i : Nat) (t : TaskState) (pid : PyString)
      (ht : s.tasks.get? i = some t) (hp : t.phase = .submitting)
      (hr : t.script.submit = .ok pid) :
      PollStep s ⟨s.sem,
        s.tasks.set i { t with ex := { t.ex with pipeline_id := pid },
                               phase := .polling t.script.statuses },
        s.gatherDone⟩
  | submitExn (s : PollState) (i : Nat) (t : TaskState)
      (ht : s.tasks.get? i = some t) (hp : t.phase = .submitting)
      (hr : t.script.submit = .exn) :
      PollStep s ⟨s.sem + 1, s.tasks.set i { t with phase := .failed }, s.gatherDone⟩
  | pollContinue (s : PollState) (i : Nat) (t : TaskState) (st : Status)
      (rest : List (CallResult Status))
      (ht : s.tasks.get? i = some t) (hp : t.phase = .polling (.ok st :: rest))
      (hst : st.isPolling = true) :
      PollStep s ⟨s.sem, s.tasks.set i { t with phase := .polling rest }, s.gatherDone⟩
  | pollDone (s : PollState) (i : Nat) (t : TaskState) (st : Status)
      (rest : List (CallResult Status))
      (ht : s.tasks.get? i = some t) (hp : t.phase = .polling (.ok st :: rest))
      (hst : st.isPolling = false) :
      PollStep s ⟨s.sem + 1,
        s.tasks.set i { t with ex := { t.ex with status := st }, phase := .done },
        s.gatherDone⟩
  | pollExn (s : PollState) (i : Nat) (t : TaskState) (rest : List (CallResult Status))
      (ht : s.tasks.get? i = some t) (hp : t.phase = .polling (.exn :: rest)) :
      PollStep s ⟨s.sem + 1, s.tasks.set i { t with phase := .failed }, s.gatherDone⟩
  | gatherFinish (s : PollState)
      (hall : ∀ t ∈ s.tasks, t.phase.ended = true) (hg : s.gatherDone = false) :
      PollStep s ⟨s.sem, s.tasks, true⟩
  | gatherExn (s : PollState) (i : Nat) (t : TaskState)
      (ht : s.tasks.get? i = some t) (hf : t.phase = .failed) (hg : s.gatherDone = false) :
      PollStep s ⟨s.sem, s.tasks, true⟩

/-- Reachability from the initial state of a `get_statuses` call. -/
def PollReach (examples : List Example) (scripts : List ClientScript) (n : Nat)
    (s : PollState) : Prop :=
  Relation.ReflTransGen PollStep (initState examples scripts n) s

/-- The number of per-example `_update_example_status` calls currently in
flight past the semaphore. -/
def countInFlight (s : PollState) : Nat :=
  s.tasks.countP (fun t => t.phase.inFlight)

/-- All per-example tasks have ended (finished or failed). -/
def allEnded (s : PollState) : Bool :=
  s.tasks.all (fun t => t.phase.ended)

/-- A scripted `check_status` outcome that stops the polling loop
(helper.py 481-484): an exception, or a non-polling status. -/
def CallResult.stopsNow : CallResult Status → Bool
  | .ok st => !st.isPolling
  | .exn => true

/-- A script whose task cannot hang: either submission raises, or some
scripted status stops the polling loop (an exception or a non-polling
status). -/
def ClientScript.terminates (c : ClientScript) : Bool :=
  (match c.submit with | .exn => true | .ok _ => false) ||
  c.statuses.any CallResult.stopsNow

/-- A script of a backend interaction that never raises and eventually
serves a non-polling status. -/
def ClientScript.faultless (c : ClientScript) : Bool :=
  (match c.submit with | .ok _ => true | .exn => false) &&
  c.statuses.all (fun r => match r with | .ok _ => true | .exn => false) &&
  c.statuses.any (fun r => match r with | .ok st => !st.isPolling | .exn => false)

/-- The remaining-work weight of one task: an upper bound on the number of
steps its coroutine can still take. -/
def TaskState.weight (t : TaskState) : Nat :=
  match t.phase with
  | .waiting => 3 + t.script.statuses.length
  | .submitting => 2 + t.script.statuses.length
  | .polling rest => 1 + rest.length
  | .done => 0
  | .failed => 0

/-- Termination measure of the whole batch: total remaining task work,
plus one for the pending gather. -/
def PollState.measure (s : PollState) : Nat :=
  (s.tasks.map TaskState.weight).sum + (if s.gatherDone then 0 else 1)

/-- The inductive invariant of the `get_statuses` transition system: the
semaphore counter plus the tasks in flight equals the concurrency limit;
the task list keeps its length and its scripts; a `done` task has stored
a terminal status; a polling task's remaining script is a suffix of its
scripted statuses; a task with a fault-free script never fails; a task
with a terminating script cannot be left polling an empty remainder; and
the gather completed either with every task ended or because some task
failed. -/
structure PollInv (scripts : List ClientScript) (m n : Nat) (s : PollState) : Prop where
  sem_flight : s.sem + countInFlight s = n
  len : s.tasks.length = m
  scripts_eq : s.tasks.map (fun t => t.script) = scripts
  done_terminal : ∀ t ∈ s.tasks, t.phase = .done → t.ex.status.isPolling = false
  poll_suffix : ∀ t ∈ s.tasks, ∀ rest, t.phase = .polling rest → rest <:+ t.script.statuses
  faultless_ok : ∀ t ∈ s.tasks, t.script.faultless = true → ¬ t.phase = .failed
  term_stops : ∀ t ∈ s.tasks, t.script.terminates = true →
    ∀ rest, t.phase = .polling rest → ∃ x ∈ rest, x.stopsNow = true
  gather_done : s.gatherDone = true →
    (∀ t ∈ s.tasks, t.phase.ended = true) ∨
    (∃ i t, s.tasks.get? i = some t ∧ t.phase = .failed)

/-- A concrete example record, used by the witnesses below. -/
def sampleExample : Example :=
  { name := "WordCount".toList, complexity := "MEDIUM".toList, sdk := .java,
    filepath := "examples/WordCount.java".toList, code := "code".toList,
    status := .unspecified, tag := {}, url_vcs := "url".toList }

/-- `p` is a strict ancestor of `q` in the `pathlib` sense:
`PurePath(p) in PurePath(q).parents`, i.e. the parts of `p` are a proper
prefix of the parts of `q`, no shorter than `q`'s anchor. -/
def strictAncestor (p q : List PyString) : Prop :=
  p ≠ q ∧ p <+: q ∧ anchorLen q ≤ p.length

/-- Concrete file for claim C7: a tag that runs to the end of the file
without a final newline (4 lines of tag text, 3 newline characters). -/
def c7content : PyString :=
  "print(1)\nbeam-playground:\n   name: x\n   complexity: BASIC\n   context_line: 5".toList

/-- The raw tag text `get_tag` extracts from `c7content`. -/
def c7tagString : PyString :=
  "beam-playground:\n   name: x\n   complexity: BASIC\n   context_line: 5".toList

/-- The tag `get_tag` extracts from `c7content`. -/
def c7tag : ExampleTag :=
  ⟨.map [("name".toList, .str "x".toList), ("complexity".toList, .str "BASIC".toList),
         ("context_line".toList, .int 5)], c7tagString⟩

/-- A second concrete file for claim C7, whose tag text does end with a
newline (4 lines of tag text, 4 newline characters). -/
def c7bcontent : PyString :=
  "print(1)\nbeam-playground:\n   name: x\n   complexity: BASIC\n   context_line: 7\nx = 1\n".toList

/-- The raw tag text `get_tag` extracts from `c7bcontent`. -/
def c7btagString : PyString :=
  "beam-playground:\n   name: x\n   complexity: BASIC\n   context_line: 7\n".toList

/-- The tag `get_tag` extracts from `c7bcontent`. -/
def c7btag : ExampleTag :=
  ⟨.map [("name".toList, .str "x".toList), ("complexity".toList, .str "BASIC".toList),
         ("context_line".toList, .int 7)], c7btagString⟩

/-- The example record `_get_example` builds from `c7bcontent`. -/
def c7bex : Example :=
  { name := "x".toList, complexity := "BASIC".toList, sdk := .python,
    filepath := "dir/x.py".toList, code := "print(1)\nx = 1\n".toList,
    status := .unspecified,
    tag := { name := .str "x".toList, complexity := .str "BASIC".toList,
             context_line := .int 3 },
    url_vcs := _get_url_vcs "dir/x.py".toList }


/-- Concrete tag dict for claim C5: the required field `name` is missing
and, independently, `categories` contains an unsupported value. -/
def c5tag : List (PyString × YVal) :=
  [("complexity".toList, .str "MEDIUM".toList),
   ("description".toList, .str "d".toList),
   ("multifile".toList, .bool false),
   ("categories".toList, .list [.str "weird".toList]),
   ("pipeline_options".toList, .str []),
   ("default_example".toList, .bool false),
   ("context_line".toList, .int 10),
   ("tags".toList, .list [.str "demo".toList])]

/-- The supported categories used by the C5 inputs. -/
def c5sup : List PyString := ["Quickstart".toList]

/-- Concrete tag dict for the C5 witness: all required fields present and
non-empty, with three independent format violations (non-boolean
multifile, one unsupported category, non-integer context_line). -/
def c5btag : List (PyString × YVal) :=
  [("name".toList, .str "x".toList),
   ("complexity".toList, .str "MEDIUM".toList),
   ("description".toList, .str "d".toList),
   ("multifile".toList, .str "nope".toList),
   ("categories".toList, .list [.str "Quickstart".toList, .str "weird".toList]),
   ("pipeline_options".toList, .str []),
   ("default_example".toList, .bool false),
   ("context_line".toList, .str "ten".toList),
   ("tags".toList, .list [.str "demo".toList])]


/-- Concrete commented file for claim C3: a valid block whose content
contains `//` inside a URL value. -/
def c3comm : List PyString :=
  ["// beam-playground:\n".toList, "//   url_notebook: https://colab.org/x\n".toList]

/-- The same block as bare text (no comment syntax). -/
def c3bare : PyString :=
  "beam-playground:\n   url_notebook: https://colab.org/x\n".toList

/-- Concrete file for claim C4: after the marker, a bare scalar line that
parses on its own but not below the marker line. -/
def c4lines : List PyString := ["beam-playground:\n".toList, "foo\n".toList]


/-- Concrete batch for the C1 witness: two examples. -/
def c1examples : List Example := [sampleExample, sampleExample]

/-- Concrete fault-free backend scripts for the C1 witness. -/
def c1scripts : List ClientScript :=
  [⟨.ok "p1".toList, [.ok .executing, .ok .finished]⟩,
   ⟨.ok "p2".toList, [.ok .finished]⟩]

/-- A fault-free backend script for the C2 inputs: submission succeeds and
the first status poll returns FINISHED. -/
def c2ok : ClientScript := ⟨.ok "p1".toList, [.ok .finished]⟩

/-- A faulty backend script for the C2 inputs: `run_code` raises. -/
def c2bad : ClientScript := ⟨.exn, []⟩

/-- Concrete batch for claim C2: five examples. -/
def c2examples : List Example :=
  [sampleExample, sampleExample, sampleExample, sampleExample, sampleExample]

/-- Concrete backend scripts for claim C2: job #3 of 5 (index 2) raises
during submit, the others are fault-free. -/
def c2scripts : List ClientScript := [c2ok, c2ok, c2bad, c2ok, c2ok]

/-- A task of the C2 batch in a given phase. -/
def c2task (c : ClientScript) (p : TaskPhase) : TaskState := ⟨sampleExample, c, p⟩

/-- The state the C2 counterexample trace reaches: the gather has
completed (propagating task #3's exception) while tasks #1, #2, #4 and #5
are still waiting, i.e. have not ended. -/
def c2final : PollState :=
  ⟨2, [c2task c2ok .waiting, c2task c2ok .waiting, c2task c2bad .failed,
       c2task c2ok .waiting, c2task c2ok .waiting], true⟩


/-! ## Theorems -/

/-- Frame lemma for the polling loop: it can change only the `status`
field of the record it returns. -/
theorem pollLoop_frame (e res : Example) (l : List (CallResult Status))
    (h : pollLoop e l = some res) : res = { e with status := res.status } := by
  induction l with
  | nil => simp [pollLoop] at h
  | cons r rest ih =>
    match r with
    | .exn => simp [pollLoop] at h
    | .ok st =>
      rw [pollLoop] at h
      by_cases hst : st.isPolling = true
      · rw [if_pos hst] at h
        exact ih h
      · rw [if_neg hst] at h
        cases h
        rfl

/-- C8: `get_statuses` takes its concurrency limit from the
`BEAM_CONCURRENCY` environment override whenever that value converts to
an integer, and for an absent or non-converting value it silently falls
back to the caller-supplied default: the `KeyError`/`ValueError` are
caught and `effectiveConcurrency` never fails (helper.py 169-176). -/
theorem get_statuses_concurrency_override (env : Option PyString) (dflt : Int) :
    (∀ st, env = some st → ∀ n, pyInt st = some n →
      effectiveConcurrency env dflt = n) ∧
    ((env = none ∨ ∃ st, env = some st ∧ pyInt st = none) →
      effectiveConcurrency env dflt = dflt) := by
  constructor
  · rintro st rfl n hn
    simp [effectiveConcurrency, hn]
  · rintro (rfl | ⟨st, rfl, hn⟩)
    · rfl
    · simp [effectiveConcurrency, hn]

/-- Witness for C8: the override `"12"` is used; the invalid override
`"ten"` and an absent variable fall back to the default `10`. -/
theorem get_statuses_concurrency_override_witness :
    effectiveConcurrency (some "12".toList) 10 = 12 ∧
    effectiveConcurrency (some "ten".toList) 10 = 10 ∧
    effectiveConcurrency none 10 = 10 := by
  refine ⟨?_, ?_, ?_⟩
  · exact (get_statuses_concurrency_override (some "12".toList) 10).1 _ rfl 12 (by decide)
  · exact (get_statuses_concurrency_override (some "ten".toList) 10).2
      (Or.inr ⟨_, rfl, by decide⟩)
  · exact (get_statuses_concurrency_override none 10).2 (Or.inl rfl)

/-- C10: for every file whose path ends with `infrastructure/helper.py`,
`_check_file` returns `False` without reading the file: for every
content, SDK and supported-category list the result is exactly
`(false, examples)` - no tag extracted, no tag error reported, no
`ExampleRecord` appended (helper.py 249-250). -/
theorem check_file_skips_helper (examples : List Example)
    (filename filepath content : PyString) (supported : List PyString) (sdk : Sdk)
    (h : "infrastructure/helper.py".toList.isSuffixOf filepath = true) :
    _check_file examples filename filepath content supported sdk =
      some (false, examples) := by
  rw [_check_file.eq_def, h]
  rfl

/-- Witness for C10 on a concrete path (with a content that does contain
a valid tag, which is nevertheless ignored). -/
theorem check_file_skips_helper_witness :
    _check_file [] "helper.py".toList
        "playground/infrastructure/helper.py".toList
        "beam-playground:\n   name: x\n".toList [] .python = some (false, []) :=
  check_file_skips_helper [] _ _ _ [] .python (by decide)

/-- C9: `_update_example_status` mutates only the record's `pipeline_id`
and `status`: whenever it completes on a record, every other field (name,
complexity, sdk, filepath, code, tag, url_vcs, url_notebook, logs, type,
output, compile_output, graph, datasets, emulators) is unchanged, and in
particular `output` and `logs` are never written by the polling engine
(helper.py 449-487). -/
theorem update_example_status_frame (e : Example) (client : ClientScript)
    (res : Example) (h : _update_example_status e client = some res) :
    res.name = e.name ∧ res.complexity = e.complexity ∧ res.sdk = e.sdk ∧
    res.filepath = e.filepath ∧ res.code = e.code ∧ res.tag = e.tag ∧
    res.url_vcs = e.url_vcs ∧ res.url_notebook = e.url_notebook ∧
    res.logs = e.logs ∧ res.type = e.type ∧ res.output = e.output ∧
    res.compile_output = e.compile_output ∧ res.graph = e.graph ∧
    res.datasets = e.datasets ∧ res.emulators = e.emulators := by
  unfold _update_example_status at h
  match hr : client.submit with
  | .exn => rw [hr] at h; cases h
  | .ok pid =>
    rw [hr] at h
    have := pollLoop_frame _ _ _ h
    rw [this]
    refine ⟨rfl, rfl, rfl, rfl, rfl, rfl, rfl, rfl, rfl, rfl, rfl, rfl, rfl, rfl, rfl⟩

/-- Witness for C9: a concrete polling run (one `executing` poll, then
`finished`) changes exactly `pipeline_id` and `status` of
`sampleExample`. -/
theorem update_example_status_frame_witness :
    _update_example_status sampleExample
        ⟨.ok "pid1".toList, [.ok .executing, .ok .finished]⟩ =
      some { sampleExample with pipeline_id := "pid1".toList, status := .finished } ∧
    ({ sampleExample with pipeline_id := "pid1".toList, status := .finished } : Example).name = sampleExample.name := by
  refine ⟨rfl, ?_⟩
  exact (update_example_status_frame sampleExample
    ⟨.ok "pid1".toList, [.ok .executing, .ok .finished]⟩ _ rfl).1

/-- Looking up a key just appended wins. -/
theorem dictGet_append_single (d : List (PyString × YVal)) (k : PyString) (v : YVal) :
    dictGet k (d ++ [(k, v)]) = some v := by
  unfold dictGet
  rw [List.foldl_append]
  simp

/-- Boolean `contains` agrees with membership for strings. -/
theorem contains_eq_true_iff_mem (l : List PyString) (k : PyString) :
    l.contains k = true ↔ k ∈ l :=
  List.elem_iff

/-- Threading `some v` through the overwritten fold leaves it intact. -/
theorem foldl_overwrite_const (d : List (PyString × YVal)) (k : PyString) (v : YVal) :
    List.foldl (fun acc e => if e.1 = k then some e.2 else acc) (some v)
      (d.map (fun e => if e.1 = k then (k, v) else e)) = some v := by
  induction d with
  | nil => rfl
  | cons e d₀ ih =>
    rw [List.map_cons, List.foldl_cons]
    by_cases he : e.1 = k
    · simp only [he, eq_self_iff_true, if_true]
      exact ih
    · simp only [if_neg he]
      exact ih

/-- Overwriting every entry of key `k` makes the lookup return the new
value, provided the key occurs. -/
theorem dictGet_map_overwrite (d : List (PyString × YVal)) (k : PyString) (v : YVal)
    (hc : k ∈ d.map Prod.fst) :
    dictGet k (d.map (fun e => if e.1 = k then (k, v) else e)) = some v := by
  induction d with
  | nil => cases hc
  | cons e d₀ ih =>
    unfold dictGet
    rw [List.map_cons, List.foldl_cons]
    by_cases he : e.1 = k
    · simp only [he, eq_self_iff_true, if_true]
      exact foldl_overwrite_const d₀ k v
    · simp only [if_neg he]
      rw [List.map_cons] at hc
      rcases List.mem_cons.mp hc with h2 | h2
      · exact absurd h2.symm he
      · have := ih h2
        unfold dictGet at this
        exact this

/-- `d[k] = v` followed by `d[k]` yields `v`. -/
theorem dictGet_dictSet (d : List (PyString × YVal)) (k : PyString) (v : YVal) :
    dictGet k (dictSet d k v) = some v := by
  unfold dictSet
  by_cases hc : (d.map Prod.fst).contains k = true
  · rw [if_pos hc]
    exact dictGet_map_overwrite d k v ((contains_eq_true_iff_mem _ _).mp hc)
  · rw [if_neg hc]
    exact dictGet_append_single d k v

/-- `exWithDatasets` changes at most the `datasets` field; in particular
it keeps the `tag`. -/
theorem exWithDatasets_tag (d : List (PyString × YVal)) (e e' : Example)
    (h : exWithDatasets d e = some e') : e'.tag = e.tag := by
  unfold exWithDatasets at h
  split at h
  all_goals first
    | (cases h; rfl)
    | cases h
    | (obtain ⟨ds, hds, hfe⟩ := Option.map_eq_some'.mp h
       subst hfe
       rfl)

/-- `exWithEmulators` changes at most the `emulators` field; in
particular it keeps the `tag`. -/
theorem exWithEmulators_tag (d : List (PyString × YVal)) (e e' : Example)
    (h : exWithEmulators d e = some e') : e'.tag = e.tag := by
  unfold exWithEmulators at h
  split at h
  all_goals first
    | (cases h; rfl)
    | cases h
    | (obtain ⟨ems, hems, hfe⟩ := Option.map_eq_some'.mp h
       subst hfe
       rfl)

/-- `readLines` of a nonempty string is nonempty. -/
theorem readLines_ne_nil (s : List Char) (hs : s ≠ []) : readLines s ≠ [] := by
  match s with
  | [] => exact absurd rfl hs
  | c :: rest =>
    rw [readLines]
    by_cases hc : c = '\n'
    · simp [hc]
    · rw [if_neg hc]
      cases readLines rest <;> simp

/-- For a string that ends with a newline, the number of `readlines`
lines equals the number of newline characters. -/
theorem readLines_length_newlines (s : List Char) (hlast : s.getLast? = some '\n') :
    (readLines s).length = countChar '\n' s := by
  induction s with
  | nil => cases hlast
  | cons c rest ih =>
    match hr : rest with
    | [] =>
      rw [List.getLast?_singleton] at hlast
      cases hlast
      rfl
    | r :: rest' =>
      have hlast' : (r :: rest').getLast? = some '\n' := by
        rwa [List.getLast?_cons_cons] at hlast
      have ihr := ih (hr ▸ hlast')
      rw [readLines]
      by_cases hc : c = '\n'
      · rw [if_pos hc, List.length_cons, ihr]
        unfold countChar
        conv_rhs => rw [List.countP_cons]
        simp [hc]
      · rw [if_neg hc]
        cases hrl : readLines (r :: rest') with
        | nil => exact absurd hrl (readLines_ne_nil _ (by simp))
        | cons l ls =>
          rw [hrl] at ihr
          unfold countChar at ihr ⊢
          conv_rhs => rw [List.countP_cons]
          simp only [List.length_cons] at ihr ⊢
          simp only [hc, decide_False, Bool.false_eq_true, if_false, add_zero]
          omega

set_option maxHeartbeats 1000000 in
/-- C7 (amended): when `_get_example` builds a record from an extracted
tag, the stored `context_line` equals the declared value minus the number
of *newline characters* in the tag text (helper.py 308,
`tag_as_string.count("\n")`); and this number equals the number of lines
the tag occupied in the original file whenever the tag text ends with a
newline.  (When the tag runs to the end of a file with no final newline
the two differ by one - see the counterexample.) -/
theorem get_example_context_line (lines : List PyString)
    (fp fn content : PyString) (t : ExampleTag) (d : List (PyString × YVal))
    (n : Int) (ex : Example)
    (htag : get_tag lines = some t)
    (hd : t.tag_as_dict = .map d)
    (hn : dictGet "context_line".toList d = some (.int n))
    (hex : _get_example fp fn content t = some ex) :
    ex.tag.context_line = .int (n - Int.ofNat (countChar '\n' t.tag_as_string)) ∧
    (t.tag_as_string.getLast? = some '\n' →
      countChar '\n' t.tag_as_string = (readLines t.tag_as_string).length) := by
  refine ⟨?_, fun hl => (readLines_length_newlines _ hl).symm⟩
  unfold _get_example at hex
  rw [hd] at hex
  dsimp only at hex
  split at hex
  · split at hex
    · rw [hn] at hex
      dsimp only at hex
      split at hex
      · split at hex
        · split at hex
          · split at hex
            · cases hex
              rename_i hbt _o1 ex1 hds _o2 hems hval
              have h2 := exWithEmulators_tag _ _ _ hems
              have h1 := exWithDatasets_tag _ _ _ hds
              rw [h2, h1]
              dsimp only
              unfold buildTag at hbt
              split at hbt
              · cases hbt
                dsimp only
                rw [dictGet_dictSet]
                rfl
              · cases hbt
            · cases hex
          · cases hex
        · cases hex
      · cases hex
    · cases hex
  · cases hex

/-- C7 counterexample: in the file `c7content` the extracted tag text
occupies 4 lines of the original file but contains only 3 newline
characters (the tag ends at EOF without a final newline); the stored
context_line is the declared 5 minus 3 = 2, while "declared minus the
number of lines the tag occupied" would be 5 - 4 = 1. -/
theorem get_example_context_line_counterexample :
    get_tag (readLines c7content) = some c7tag ∧
    (readLines c7tag.tag_as_string).length = 4 ∧
    (_get_example "dir/x.py".toList "x.py".toList c7content c7tag).map
        (fun ex => ex.tag.context_line) = some (.int 2) ∧
    (5 : Int) - 4 ≠ 2 := by
  exact ⟨rfl, rfl, rfl, by decide⟩

/-- Witness for C7 on the file `c7bcontent`, whose tag text ends with a
newline: the stored context_line is 7 - 4 = 3 and the newline count
agrees with the occupied line count. -/
theorem get_example_context_line_witness :
    c7bex.tag.context_line =
      .int (7 - Int.ofNat (countChar '\n' c7btag.tag_as_string)) ∧
    (c7btag.tag_as_string.getLast? = some '\n' →
      countChar '\n' c7btag.tag_as_string = (readLines c7btag.tag_as_string).length) :=
  get_example_context_line (readLines c7bcontent) "dir/x.py".toList "x.py".toList
    c7bcontent c7btag
    [("name".toList, .str "x".toList), ("complexity".toList, .str "BASIC".toList),
     ("context_line".toList, .int 7)]
    7 c7bex rfl rfl rfl rfl

/-- A Bool that is not `true` is `false`. -/
theorem bool_eq_false_of_not_true {b : Bool} (h : ¬(b = true)) : b = false := by
  cases b
  · rfl
  · exact absurd rfl h

/-- A Bool that is `false` is not `true`. -/
theorem bool_not_true_of_eq_false {b : Bool} (h : b = false) : ¬(b = true) := by
  intro hh
  rw [h] at hh
  exact Bool.noConfusion hh

/-- Once `valid` is `false` it stays `false` through the required-fields loop. -/
theorem checkRequired_false (tag : List (PyString × YVal)) (fs : List PyString)
    (errs : List VErr) : (checkRequired tag fs false errs).1 = false := by
  induction fs generalizing errs with
  | nil => rfl
  | cons f fs ih =>
    rw [checkRequired]
    dsimp only
    split <;> exact ih _

/-- The required-fields loop only appends to the error list. -/
theorem checkRequired_errs_mono (tag : List (PyString × YVal)) (fs : List PyString)
    (valid : Bool) (errs : List VErr) :
    ∃ extra, (checkRequired tag fs valid errs).2 = errs ++ extra := by
  induction fs generalizing valid errs with
  | nil => exact ⟨[], by simp [checkRequired]⟩
  | cons f fs ih =>
    rw [checkRequired]
    dsimp only
    split
    · simp only [Bool.false_eq_true, if_false]
      obtain ⟨extra, hx⟩ := ih false (errs ++ [.missingField f])
      exact ⟨[VErr.missingField f] ++ extra, by rw [hx, List.append_assoc]⟩
    · split
      · split
        · obtain ⟨extra, hx⟩ := ih false (errs ++ [.emptyField f])
          exact ⟨[VErr.emptyField f] ++ extra, by rw [hx, List.append_assoc]⟩
        · exact ih _ _
      · exact ih _ _

/-- Step equation of the required-fields loop: a missing field. -/
theorem checkRequired_cons_missing (tag : List (PyString × YVal)) (f : PyString)
    (fs : List PyString) (valid : Bool) (errs : List VErr)
    (h : (dictGet f tag).isNone = true) :
    checkRequired tag (f :: fs) valid errs =
      checkRequired tag fs false (errs ++ [.missingField f]) := by
  rw [checkRequired]
  dsimp only
  rw [if_pos h]
  simp only [Bool.false_eq_true, if_false]

/-- Step equation: a present but empty field while `valid` still holds. -/
theorem checkRequired_cons_empty (tag : List (PyString × YVal)) (f : PyString)
    (fs : List PyString) (errs : List VErr)
    (h : (dictGet f tag).isNone = false)
    (h2 : (isEmptyVal (dictGet f tag) && !(f == "pipeline_options".toList)) = true) :
    checkRequired tag (f :: fs) true errs =
      checkRequired tag fs false (errs ++ [.emptyField f]) := by
  rw [checkRequired]
  dsimp only
  rw [if_neg (bool_not_true_of_eq_false h)]
  dsimp only
  rw [if_pos (show (true = true) from rfl), if_pos h2]

/-- Step equation: a field that triggers neither check. -/
theorem checkRequired_cons_present (tag : List (PyString × YVal)) (f : PyString)
    (fs : List PyString) (valid : Bool) (errs : List VErr)
    (h : (dictGet f tag).isNone = false)
    (h2 : (isEmptyVal (dictGet f tag) && !(f == "pipeline_options".toList)) = false) :
    checkRequired tag (f :: fs) valid errs = checkRequired tag fs valid errs := by
  rw [checkRequired]
  dsimp only
  rw [if_neg (bool_not_true_of_eq_false h)]
  dsimp only
  by_cases hv : valid = true
  · rw [if_pos hv, if_neg (bool_not_true_of_eq_false h2)]
  · rw [if_neg hv]

/-- If the required-fields loop ends with `valid`, it changed nothing. -/
theorem checkRequired_true_elim (tag : List (PyString × YVal)) (fs : List PyString)
    (errs : List VErr) (h : (checkRequired tag fs true errs).1 = true) :
    checkRequired tag fs true errs = (true, errs) := by
  induction fs generalizing errs with
  | nil => rfl
  | cons f fs ih =>
    by_cases h1 : (dictGet f tag).isNone = true
    · rw [checkRequired_cons_missing tag f fs true errs h1] at h
      rw [checkRequired_false] at h
      cases h
    · have h1' : (dictGet f tag).isNone = false := bool_eq_false_of_not_true h1
      by_cases h2 : (isEmptyVal (dictGet f tag) && !(f == "pipeline_options".toList)) = true
      · rw [checkRequired_cons_empty tag f fs errs h1' h2] at h
        rw [checkRequired_false] at h
        cases h
      · have h2' := bool_eq_false_of_not_true h2
        rw [checkRequired_cons_present tag f fs true errs h1' h2'] at h ⊢
        exact ih _ h

/-- A missing required field forces the loop result to `false`. -/
theorem checkRequired_missing_false (tag : List (PyString × YVal)) (fs : List PyString)
    (f : PyString) (valid : Bool) (errs : List VErr)
    (hf : f ∈ fs) (hmiss : dictGet f tag = none) :
    (checkRequired tag fs valid errs).1 = false := by
  induction fs generalizing valid errs with
  | nil => cases hf
  | cons g fs ih =>
    rcases List.mem_cons.mp hf with rfl | hf'
    · rw [checkRequired_cons_missing tag f fs valid errs (by simp [hmiss])]
      exact checkRequired_false tag fs _
    · by_cases h1 : (dictGet g tag).isNone = true
      · rw [checkRequired_cons_missing tag g fs valid errs h1]
        exact checkRequired_false tag fs _
      · have h1' : (dictGet g tag).isNone = false := bool_eq_false_of_not_true h1
        by_cases hv : valid = true
        · subst hv
          by_cases h2 : (isEmptyVal (dictGet g tag) && !(g == "pipeline_options".toList)) = true
          · rw [checkRequired_cons_empty tag g fs errs h1' h2]
            exact checkRequired_false tag fs _
          · have h2' := bool_eq_false_of_not_true h2
            rw [checkRequired_cons_present tag g fs true errs h1' h2']
            exact ih _ _ hf'
        · have hv' : valid = false := bool_eq_false_of_not_true hv
          subst hv'
          rw [checkRequired]
          dsimp only
          rw [if_neg (bool_not_true_of_eq_false h1')]
          dsimp only
          rw [if_neg (bool_not_true_of_eq_false rfl)]
          exact ih _ _ hf'

/-- A missing required field contributes its own error to the loop's list. -/
theorem checkRequired_missing_mem (tag : List (PyString × YVal)) (fs : List PyString)
    (f : PyString) (valid : Bool) (errs : List VErr)
    (hf : f ∈ fs) (hmiss : dictGet f tag = none) :
    VErr.missingField f ∈ (checkRequired tag fs valid errs).2 := by
  induction fs generalizing valid errs with
  | nil => cases hf
  | cons g fs ih =>
    rcases List.mem_cons.mp hf with rfl | hf'
    · rw [checkRequired_cons_missing tag f fs valid errs (by simp [hmiss])]
      obtain ⟨extra, hx⟩ := checkRequired_errs_mono tag fs false (errs ++ [.missingField f])
      rw [hx]
      simp
    · by_cases h1 : (dictGet g tag).isNone = true
      · rw [checkRequired_cons_missing tag g fs valid errs h1]
        exact ih _ _ hf'
      · have h1' : (dictGet g tag).isNone = false := bool_eq_false_of_not_true h1
        by_cases hv : valid = true
        · subst hv
          by_cases h2 : (isEmptyVal (dictGet g tag) && !(g == "pipeline_options".toList)) = true
          · rw [checkRequired_cons_empty tag g fs errs h1' h2]
            exact ih _ _ hf'
          · have h2' := bool_eq_false_of_not_true h2
            rw [checkRequired_cons_present tag g fs true errs h1' h2']
            exact ih _ _ hf'
        · have hv' : valid = false := bool_eq_false_of_not_true hv
          subst hv'
          rw [checkRequired]
          dsimp only
          rw [if_neg (bool_not_true_of_eq_false h1')]
          dsimp only
          rw [if_neg (bool_not_true_of_eq_false rfl)]
          exact ih _ _ hf'

/-- `all p` holds iff filtering the failures leaves nothing. -/
theorem all_eq_filter_isEmpty {α : Type} (p : α → Bool) (l : List α) :
    l.all p = (l.filter (fun a => !p a)).isEmpty := by
  induction l with
  | nil => rfl
  | cons a l ih =>
    by_cases hp : p a = true <;> simp [hp, List.filter_cons, ih]

/-- Mapping preserves emptiness. -/
theorem isEmpty_map {α β : Type} (f : α → β) (l : List α) :
    (l.map f).isEmpty = l.isEmpty := by
  cases l <;> rfl

/-- The categories loop in closed form: one error per unsupported element. -/
theorem checkCategoriesList_spec (supported : List PyString) (cs : List YVal)
    (valid : Bool) (errs : List VErr) :
    checkCategoriesList supported cs valid errs =
      (valid && cs.all (categoryOk supported),
       errs ++ (cs.filter (fun c => !categoryOk supported c)).map
         (fun c => VErr.unsupportedCategory (pyStrOf c))) := by
  induction cs generalizing valid errs with
  | nil => simp [checkCategoriesList]
  | cons c cs ih =>
    rw [checkCategoriesList]
    by_cases hc : categoryOk supported c = true
    · rw [if_pos hc, ih]
      simp [hc, List.filter_cons]
    · have hc' : categoryOk supported c = false := bool_eq_false_of_not_true hc
      rw [if_neg (bool_not_true_of_eq_false hc'), ih]
      simp [hc', List.filter_cons]

/-- The multifile check in closed form. -/
theorem multifileCheck_spec (tag : List (PyString × YVal)) (valid : Bool)
    (errs : List VErr) :
    multifileCheck tag valid errs =
      (valid && (multifileErrs tag).isEmpty, errs ++ multifileErrs tag) := by
  unfold multifileCheck multifileErrs
  by_cases hm : multifileOk tag = true <;> simp [hm]

/-- The categories check in closed form. -/
theorem categoriesCheck_spec (supported : List PyString)
    (tag : List (PyString × YVal)) (valid : Bool) (errs : List VErr) :
    categoriesCheck supported tag valid errs =
      (valid && (categoriesErrs tag supported).isEmpty,
       errs ++ categoriesErrs tag supported) := by
  unfold categoriesCheck categoriesErrs
  rcases dictGet "categories".toList tag with _ | v
  · simp
  · cases v with
    | list cs =>
      dsimp only
      rw [checkCategoriesList_spec]
      rw [all_eq_filter_isEmpty, ← isEmpty_map (fun c => VErr.unsupportedCategory (pyStrOf c))]
    | null => simp
    | bool b => simp
    | int n => simp
    | str s => simp
    | map m => simp

/-- The context-line check in closed form. -/
theorem contextCheck_spec (tag : List (PyString × YVal)) (valid : Bool)
    (errs : List VErr) :
    contextCheck tag valid errs =
      (valid && (contextLineErrs tag).isEmpty, errs ++ contextLineErrs tag) := by
  unfold contextCheck contextLineErrs
  rcases dictGet "context_line".toList tag with _ | v
  · simp
  · cases v <;> simp

/-- Emptiness of an append. -/
theorem isEmpty_append {α : Type} (l1 l2 : List α) :
    (l1 ++ l2).isEmpty = (l1.isEmpty && l2.isEmpty) := by
  cases l1 <;> simp [List.isEmpty]

/-- C5 (amended): `_validate` accumulates one logged error per violated
rule *within* each stage: when all required fields are present and
non-empty, the error list is exactly the concatenation of the independent
multifile, categories (one error per unsupported element, or one type
error) and context-line errors, and the result is `False` iff that list
is nonempty; and every missing required field contributes its own logged
error and makes the result `False`.  However a required-fields failure
returns before the format checks run (helper.py 387-388), so those
violations are then not logged (see the counterexample). -/
theorem validate_error_accumulation :
    (∀ tag supported, (checkRequired tag requiredTagFields true []).1 = true →
        _validate tag supported =
          ((multifileErrs tag ++ categoriesErrs tag supported ++ contextLineErrs tag).isEmpty,
           multifileErrs tag ++ categoriesErrs tag supported ++ contextLineErrs tag)) ∧
    (∀ tag supported f, f ∈ requiredTagFields → dictGet f tag = none →
        (_validate tag supported).1 = false ∧
        VErr.missingField f ∈ (_validate tag supported).2) := by
  constructor
  · intro tag supported h
    have hs1 := checkRequired_true_elim tag requiredTagFields [] h
    unfold _validate
    rw [hs1]
    dsimp only
    rw [if_neg (show ¬(true = false) from fun hh => Bool.noConfusion hh)]
    rw [multifileCheck_spec]
    dsimp only
    rw [categoriesCheck_spec]
    dsimp only
    rw [contextCheck_spec]
    simp [isEmpty_append, Bool.and_assoc]
  · intro tag supported f hf hm
    have h1 := checkRequired_missing_false tag requiredTagFields f true [] hf hm
    have h2 := checkRequired_missing_mem tag requiredTagFields f true [] hf hm
    unfold _validate
    dsimp only
    rw [if_pos h1]
    exact ⟨h1, h2⟩

/-- C5 counterexample: `c5tag` is missing the required `name` field and,
independently, carries the unsupported category `"weird"`; `_validate`
logs only the missing-field error and returns, with no
`unsupportedCategory` error, contradicting "one logged error per
violated rule, not only the first". -/
theorem validate_first_error_only_counterexample :
    _validate c5tag c5sup = (false, [VErr.missingField "name".toList]) ∧
    categoriesErrs c5tag c5sup = [VErr.unsupportedCategory "weird".toList] :=
  ⟨rfl, rfl⟩

/-- Witness for C5: on `c5btag` (all required fields present, three
independent format violations) every violated rule logs its error; on
`c5tag` the missing `name` is logged and the result is `False`. -/
theorem validate_error_accumulation_witness :
    _validate c5btag c5sup =
      ((multifileErrs c5btag ++ categoriesErrs c5btag c5sup ++ contextLineErrs c5btag).isEmpty,
       multifileErrs c5btag ++ categoriesErrs c5btag c5sup ++ contextLineErrs c5btag) ∧
    ((_validate c5tag c5sup).1 = false ∧
     VErr.missingField "name".toList ∈ (_validate c5tag c5sup).2) := by
  constructor
  · exact validate_error_accumulation.1 c5btag c5sup (by rfl)
  · exact validate_error_accumulation.2 c5tag c5sup "name".toList (by decide) (by rfl)

/-- Splitting off a separator-free prefix. -/
theorem splitOnChar_firstSegment (sep : Char) (p s : List Char)
    (hp : ∀ ch ∈ p, ch ≠ sep) :
    splitOnChar sep (p ++ sep :: s) = p :: splitOnChar sep s := by
  induction p with
  | nil =>
    rw [List.nil_append, splitOnChar]
    rw [if_pos rfl]
  | cons a p' ih =>
    rw [List.cons_append, splitOnChar]
    rw [if_neg (hp a (List.mem_cons_self a p'))]
    rw [ih (fun ch hch => hp ch (List.mem_cons_of_mem a hch))]

/-- The first YAML line of a marker-headed candidate is the marker. -/
theorem toYLines_marker (s : PyString) :
    toYLines (BEAM_PLAYGROUND_TITLE ++ s) =
      ⟨0, "beam-playground:".toList⟩ :: toYLines s := by
  unfold toYLines
  rw [show BEAM_PLAYGROUND_TITLE ++ s = "beam-playground:".toList ++ '\n' :: s from rfl]
  rw [splitOnChar_firstSegment _ _ _ (by decide)]
  rw [List.filterMap_cons]
  rfl

/-- The lookup fold keeps a present accumulator present. -/
theorem foldl_dictGet_isSome (k : PyString) (m : List (PyString × YVal))
    (acc : Option YVal) (h : acc.isSome = true) :
    (m.foldl (fun a e => if e.1 = k then some e.2 else a) acc).isSome = true := by
  induction m generalizing acc with
  | nil => exact h
  | cons e m' ih =>
    rw [List.foldl_cons]
    by_cases he : e.1 = k
    · exact ih _ (by rw [if_pos he]; rfl)
    · exact ih _ (by rw [if_neg he]; exact h)

/-- A key present at the head of a dict is found (whatever later
entries overwrite it with). -/
theorem dictGet_isSome_head (k : PyString) (v : YVal) (m : List (PyString × YVal)) :
    (dictGet k ((k, v) :: m)).isSome = true := by
  unfold dictGet
  rw [List.foldl_cons]
  exact foldl_dictGet_isSome k m _ (by rw [if_pos rfl]; rfl)

/-- A parseable marker-headed document is a mapping whose first key is
the `beam-playground` key. -/
theorem parseSubF_marker_shape (fuel : Nat) (ls : List YLine)
    (h : (parseSubF fuel (⟨0, "beam-playground:".toList⟩ :: ls)).isSome = true) :
    ∃ v m, parseSubF fuel (⟨0, "beam-playground:".toList⟩ :: ls) =
      some (.map ((BEAM_PLAYGROUND, v) :: m)) := by
  match fuel with
  | 0 => cases h
  | fuel + 1 =>
    rw [parseSubF] at h ⊢
    rw [if_pos (show (yEntry "beam-playground:".toList).isSome = true from rfl)] at h ⊢
    match fuel with
    | 0 => cases h
    | fuel + 1 =>
      rw [parseMapF] at h ⊢
      rw [if_pos (show (0 : Nat) = 0 from rfl)] at h ⊢
      rw [show yEntry "beam-playground:".toList =
        some (BEAM_PLAYGROUND, none) from rfl] at h ⊢
      dsimp only at h ⊢
      cases hsub : parseSubF fuel (ls.takeWhile fun c => 0 < c.indent) with
      | none =>
        rw [hsub] at h
        exact Bool.noConfusion h
      | some v =>
        cases hmap : parseMapF fuel 0 (ls.dropWhile fun c => 0 < c.indent) with
        | none =>
          rw [hsub, hmap] at h
          exact Bool.noConfusion h
        | some m => exact ⟨v, m, rfl⟩

/-- `yamlLoad` of a parseable marker-headed candidate is a mapping whose
first key is the `beam-playground` key. -/
theorem yamlLoad_marker_shape (s : PyString)
    (h : (yamlLoad (BEAM_PLAYGROUND_TITLE ++ s)).isSome = true) :
    ∃ v m, yamlLoad (BEAM_PLAYGROUND_TITLE ++ s) =
      some (.map ((BEAM_PLAYGROUND, v) :: m)) := by
  unfold yamlLoad at h ⊢
  rw [toYLines_marker] at h ⊢
  exact parseSubF_marker_shape _ _ h

/-- When every comment-wrapped line formats back to its bare form and
every candidate prefix parses, the accumulation loop consumes the whole
file: `yaml_string` becomes the bare block and `tag_string` the original
commented text. -/
theorem getTagLoop_full (c : PyString) (rest : List PyString) (ys ts : PyString)
    (hc : ∀ l ∈ rest, formatLine (c ++ l) = l)
    (hys : ∀ k, k ≤ rest.length →
      (yamlLoad (ys ++ (rest.take k).flatten)).isSome = true) :
    getTagLoop (rest.map (fun l => c ++ l)) ys ts =
      (ys ++ rest.flatten, ts ++ (rest.map (fun l => c ++ l)).flatten) := by
  induction rest generalizing ys ts with
  | nil => simp [getTagLoop]
  | cons l rest' ih =>
    rw [List.map_cons, getTagLoop]
    rw [hc l (List.mem_cons_self l rest')]
    have h1 : (yamlLoad (ys ++ l)).isSome = true := by
      have h := hys 1 (by simp)
      simpa using h
    rw [if_pos h1]
    rw [ih (ys ++ l) (ts ++ (c ++ l))
      (fun l' hl' => hc l' (List.mem_cons_of_mem l hl'))
      (fun k hk => by
        have h := hys (k + 1) (by simpa using Nat.succ_le_succ hk)
        simpa [List.append_assoc] using h)]
    simp [List.append_assoc]

/-- Closed form of the accumulation loop (helper.py 216-223): some
prefix of the lines is consumed; every intermediate candidate (the
accumulated text *including* the marker seed `ys`) parsed, and the loop
stopped either at end of file or at the first line whose addition made
the candidate unparseable - before appending it. -/
theorem getTagLoop_boundary (lines : List PyString) (ys ts : PyString) :
    ∃ k, k ≤ lines.length ∧
      getTagLoop lines ys ts =
        (ys ++ ((lines.take k).map formatLine).flatten, ts ++ (lines.take k).flatten) ∧
      (∀ j, j < k →
        (yamlLoad (ys ++ ((lines.take (j+1)).map formatLine).flatten)).isSome = true) ∧
      (k = lines.length ∨
        (yamlLoad (ys ++ ((lines.take (k+1)).map formatLine).flatten)).isSome = false) := by
  induction lines generalizing ys ts with
  | nil =>
    refine ⟨0, Nat.le_refl 0, by simp [getTagLoop], fun j hj => absurd hj (Nat.not_lt_zero j), Or.inl rfl⟩
  | cons l rest ih =>
    by_cases h1 : (yamlLoad (ys ++ formatLine l)).isSome = true
    · obtain ⟨k', hk', heq, hall, hend⟩ := ih (ys ++ formatLine l) (ts ++ l)
      refine ⟨k' + 1, Nat.succ_le_succ hk', ?_, ?_, ?_⟩
      · rw [getTagLoop]
        rw [if_pos h1, heq]
        simp [List.take_succ_cons, List.append_assoc]
      · intro j hj
        match j with
        | 0 => simpa using h1
        | j' + 1 =>
          have := hall j' (Nat.lt_of_succ_lt_succ hj)
          simpa [List.take_succ_cons, List.append_assoc] using this
      · rcases hend with hlen | hfail
        · exact Or.inl (by simp [hlen])
        · exact Or.inr (by simpa [List.take_succ_cons, List.append_assoc] using hfail)
    · have h1' : (yamlLoad (ys ++ formatLine l)).isSome = false :=
        bool_eq_false_of_not_true h1
      refine ⟨0, Nat.zero_le _, ?_, fun j hj => absurd hj (Nat.not_lt_zero j), Or.inr ?_⟩
      · rw [getTagLoop]
        rw [if_neg (bool_not_true_of_eq_false h1')]
        simp
      · simpa using h1'

/-- C3 (amended): comment-marker-invariance holds for blocks whose lines
are restored exactly by the comment stripping (no `//`, `#` or tab in the
bare content) and whose candidate prefixes all parse: `get_tag` on the
comment-embedded block returns precisely the value under the
`beam-playground` key of the bare block's parse, plus the exact original
commented text.  It fails in general because lines 209-210 strip *every*
occurrence of the comment markers, also inside values (see the
counterexample). -/
theorem get_tag_marker_invariance (c : PyString) (rest : List PyString)
    (hc0 : formatLine (c ++ BEAM_PLAYGROUND_TITLE) = BEAM_PLAYGROUND_TITLE)
    (hc : ∀ l ∈ rest, formatLine (c ++ l) = l)
    (hp : ∀ k, k ≤ rest.length →
      (yamlLoad (BEAM_PLAYGROUND_TITLE ++ (rest.take k).flatten)).isSome = true) :
    ∃ m v, yamlLoad (BEAM_PLAYGROUND_TITLE ++ rest.flatten) = some (.map m) ∧
      dictGet BEAM_PLAYGROUND m = some v ∧
      get_tag ((BEAM_PLAYGROUND_TITLE :: rest).map (fun l => c ++ l)) =
        some ⟨v, ((BEAM_PLAYGROUND_TITLE :: rest).map (fun l => c ++ l)).flatten⟩ := by
  have hfull := hp rest.length (Nat.le_refl _)
  rw [List.take_length] at hfull
  obtain ⟨v0, m0, hshape⟩ := yamlLoad_marker_shape _ hfull
  have hdg : (dictGet BEAM_PLAYGROUND ((BEAM_PLAYGROUND, v0) :: m0)).isSome = true :=
    dictGet_isSome_head _ _ _
  obtain ⟨v, hv⟩ := Option.isSome_iff_exists.mp hdg
  have hlsm : pyLstrip (formatLine (c ++ BEAM_PLAYGROUND_TITLE)) = BEAM_PLAYGROUND_TITLE := by
    rw [hc0]
    decide
  refine ⟨(BEAM_PLAYGROUND, v0) :: m0, v, hshape, hv, ?_⟩
  unfold get_tag
  rw [List.map_cons, findMarker]
  rw [if_pos hlsm]
  dsimp only
  rw [hlsm]
  rw [getTagLoop_full c rest BEAM_PLAYGROUND_TITLE (c ++ BEAM_PLAYGROUND_TITLE) hc hp]
  dsimp only
  rw [hshape]
  dsimp only
  rw [hv]
  simp

/-- C3 counterexample: a valid block carrying `//` inside a URL value.
Extraction from the `//`-commented file yields the mangled value
`https:colab.org/x`, while parsing the same block as bare text yields
`https://colab.org/x`: the two mappings differ, refuting invariance as
universally stated. -/
theorem get_tag_marker_invariance_counterexample :
    (get_tag c3comm).map (fun t => t.tag_as_dict) =
      some (.map [("url_notebook".toList, .str "https:colab.org/x".toList)]) ∧
    yamlLoad c3bare =
      some (.map [(BEAM_PLAYGROUND,
        .map [("url_notebook".toList, .str "https://colab.org/x".toList)])]) ∧
    ("https:colab.org/x".toList : PyString) ≠ "https://colab.org/x".toList :=
  ⟨rfl, rfl, by decide⟩

/-- Witness for C3 on a one-field block commented with `//`. -/
theorem get_tag_marker_invariance_witness :
    ∃ m v, yamlLoad (BEAM_PLAYGROUND_TITLE ++ (["   name: x\n".toList] : List PyString).flatten) =
        some (.map m) ∧
      dictGet BEAM_PLAYGROUND m = some v ∧
      get_tag ((BEAM_PLAYGROUND_TITLE :: ["   name: x\n".toList]).map
          (fun l => "//".toList ++ l)) =
        some ⟨v, ((BEAM_PLAYGROUND_TITLE :: ["   name: x\n".toList]).map
          (fun l => "//".toList ++ l)).flatten⟩ :=
  get_tag_marker_invariance "//".toList ["   name: x\n".toList]
    (by decide) (by decide) (by decide)

/-- C4 (amended): in the accumulating state the code probes the
candidate *including* the marker line (`yaml_string` is seeded with it,
helper.py 214-219): there is a boundary `k` such that the returned raw
text is the marker line plus exactly the first `k` following lines,
every intermediate marker-headed candidate parses, and the loop stopped
at end of file or at the first failing line, before appending it.  The
claim's "candidate without the marker line" is refuted by the
counterexample. -/
theorem get_tag_candidate_boundary (m0 : PyString) (rest : List PyString)
    (hm : pyLstrip (formatLine m0) = BEAM_PLAYGROUND_TITLE) :
    ∃ k, k ≤ rest.length ∧
      (∀ t, get_tag (m0 :: rest) = some t →
        t.tag_as_string = m0 ++ (rest.take k).flatten) ∧
      (∀ j, j < k →
        (yamlLoad (BEAM_PLAYGROUND_TITLE ++
          ((rest.take (j+1)).map formatLine).flatten)).isSome = true) ∧
      (k = rest.length ∨
        (yamlLoad (BEAM_PLAYGROUND_TITLE ++
          ((rest.take (k+1)).map formatLine).flatten)).isSome = false) := by
  obtain ⟨k, hk, heq, hall, hend⟩ :=
    getTagLoop_boundary rest (pyLstrip (formatLine m0)) m0
  rw [hm] at heq hall hend
  refine ⟨k, hk, ?_, hall, hend⟩
  intro t ht
  unfold get_tag at ht
  rw [findMarker] at ht
  rw [if_pos hm] at ht
  dsimp only at ht
  rw [hm, heq] at ht
  dsimp only at ht
  split at ht
  · split at ht
    · cases ht
      rfl
    · cases ht
  · cases ht

/-- C4 counterexample: after the marker, the line `foo` parses on its
own (a plain YAML scalar) but not below the marker line.  The code stops
before it (raw text = marker line only), while the spec's
probe-without-the-marker policy (`getTagAccumSpec`) would keep it: the
two raw texts differ, so the code does not parse the candidate without
the marker line. -/
theorem get_tag_probe_without_marker_counterexample :
    (get_tag c4lines).map (fun t => t.tag_as_string) =
      some "beam-playground:\n".toList ∧
    getTagAccumSpec c4lines =
      some ("foo\n".toList, "beam-playground:\nfoo\n".toList) ∧
    (yamlLoad "foo\n".toList).isSome = true ∧
    (yamlLoad "beam-playground:\nfoo\n".toList).isSome = false :=
  ⟨rfl, rfl, rfl, rfl⟩

/-- Witness for C4 on a commented block followed by an `import` line. -/
theorem get_tag_candidate_boundary_witness :
    ∃ k, k ≤ (["//   name: x\n".toList, "import os\n".toList] : List PyString).length ∧
      (∀ t, get_tag ("// beam-playground:\n".toList ::
          ["//   name: x\n".toList, "import os\n".toList]) = some t →
        t.tag_as_string = "// beam-playground:\n".toList ++
          ((["//   name: x\n".toList, "import os\n".toList] : List PyString).take k).flatten) ∧
      (∀ j, j < k →
        (yamlLoad (BEAM_PLAYGROUND_TITLE ++
          (((["//   name: x\n".toList, "import os\n".toList] : List PyString).take (j+1)).map
            formatLine).flatten)).isSome = true) ∧
      (k = (["//   name: x\n".toList, "import os\n".toList] : List PyString).length ∨
        (yamlLoad (BEAM_PLAYGROUND_TITLE ++
          (((["//   name: x\n".toList, "import os\n".toList] : List PyString).take (k+1)).map
            formatLine).flatten)).isSome = false) :=
  get_tag_candidate_boundary "// beam-playground:\n".toList
    ["//   name: x\n".toList, "import os\n".toList] (by decide)

/-- String `<` is irreflexive. -/
theorem strLt_irrefl (a : PyString) : strLt a a = false := by
  induction a with
  | nil => rfl
  | cons x xs ih =>
    rw [strLt]
    rw [if_neg (show ¬(x < x) from lt_irrefl x), if_pos rfl]
    exact ih

/-- String `<` is asymmetric. -/
theorem strLt_asymm (a b : PyString) (h : strLt a b = true) : strLt b a = false := by
  induction a generalizing b with
  | nil =>
    cases b with
    | nil => cases h
    | cons y ys => rfl
  | cons x xs ih =>
    cases b with
    | nil => cases h
    | cons y ys =>
      rw [strLt] at h
      rw [strLt]
      by_cases hxy : x < y
      · rw [if_neg (show ¬(y < x) from lt_asymm hxy),
            if_neg (show ¬(y = x) from fun he => absurd (he ▸ hxy) (lt_irrefl x))]
      · rw [if_neg hxy] at h
        by_cases hxy2 : x = y
        · rw [if_pos hxy2] at h
          subst hxy2
          rw [if_neg (show ¬(x < x) from lt_irrefl x), if_pos rfl]
          exact ih _ h
        · rw [if_neg hxy2] at h
          cases h

/-- String `<` is transitive. -/
theorem strLt_trans (a b c : PyString) (h1 : strLt a b = true)
    (h2 : strLt b c = true) : strLt a c = true := by
  induction a generalizing b c with
  | nil =>
    cases c with
    | nil =>
      cases b with
      | nil => cases h1
      | cons y ys => cases h2
    | cons z cs => rfl
  | cons x xs ih =>
    cases b with
    | nil => cases h1
    | cons y ys =>
      cases c with
      | nil => cases h2
      | cons z cs =>
        rw [strLt] at h1 h2 ⊢
        by_cases hxy : x < y
        · by_cases hyz : y < z
          · rw [if_pos (lt_trans hxy hyz)]
          · rw [if_neg hyz] at h2
            by_cases hyz2 : y = z
            · rw [if_pos (hyz2 ▸ hxy)]
            · rw [if_neg hyz2] at h2
              cases h2
        · rw [if_neg hxy] at h1
          by_cases hxy2 : x = y
          · rw [if_pos hxy2] at h1
            subst hxy2
            by_cases hyz : x < z
            · rw [if_pos hyz]
            · rw [if_neg hyz] at h2
              by_cases hyz2 : x = z
              · subst hyz2
                rw [if_pos rfl] at h2
                rw [if_neg (show ¬(x < x) from lt_irrefl x), if_pos rfl]
                exact ih _ _ h1 h2
              · rw [if_neg hyz2] at h2
                cases h2
          · rw [if_neg hxy2] at h1
            cases h1

/-- Distinct strings compare one way or the other. -/
theorem strLt_total_of_ne (a b : PyString) (h : a ≠ b) :
    strLt a b = true ∨ strLt b a = true := by
  induction a generalizing b with
  | nil =>
    cases b with
    | nil => exact absurd rfl h
    | cons y ys => exact Or.inl rfl
  | cons x xs ih =>
    cases b with
    | nil => exact Or.inr rfl
    | cons y ys =>
      rcases lt_trichotomy x y with hlt | heq | hgt
      · exact Or.inl (by rw [strLt, if_pos hlt])
      · subst heq
        have hne : xs ≠ ys := fun he => h (by rw [he])
        rcases ih ys hne with h1 | h1
        · refine Or.inl ?_
          rw [strLt, if_neg (show ¬(x < x) from lt_irrefl x), if_pos rfl]
          exact h1
        · refine Or.inr ?_
          rw [strLt, if_neg (show ¬(x < x) from lt_irrefl x), if_pos rfl]
          exact h1
      · exact Or.inr (by rw [strLt, if_pos hgt])

/-- The parts order is total. -/
theorem partsLe_total (a b : List PyString) :
    partsLe a b = true ∨ partsLe b a = true := by
  induction a generalizing b with
  | nil => exact Or.inl rfl
  | cons x xs ih =>
    cases b with
    | nil => exact Or.inr rfl
    | cons y ys =>
      by_cases hxy : x = y
      · subst hxy
        rcases ih ys with h1 | h1
        · refine Or.inl ?_
          rw [partsLe, if_neg (bool_not_true_of_eq_false (strLt_irrefl x)), if_pos rfl]
          exact h1
        · refine Or.inr ?_
          rw [partsLe, if_neg (bool_not_true_of_eq_false (strLt_irrefl x)), if_pos rfl]
          exact h1
      · rcases strLt_total_of_ne x y hxy with h1 | h1
        · exact Or.inl (by rw [partsLe, if_pos h1])
        · exact Or.inr (by rw [partsLe, if_pos h1])

/-- The parts order is transitive. -/
theorem partsLe_trans (a b c : List PyString)
    (h1 : partsLe a b = true) (h2 : partsLe b c = true) : partsLe a c = true := by
  induction a generalizing b c with
  | nil => rfl
  | cons x xs ih =>
    cases b with
    | nil => cases h1
    | cons y ys =>
      cases c with
      | nil => cases h2
      | cons z cs =>
        rw [partsLe] at h1 h2 ⊢
        by_cases hxy : strLt x y = true
        · by_cases hyz : strLt y z = true
          · rw [if_pos (strLt_trans x y z hxy hyz)]
          · rw [if_neg hyz] at h2
            by_cases hyz2 : y = z
            · rw [if_pos (hyz2 ▸ hxy)]
            · rw [if_neg hyz2] at h2
              cases h2
        · rw [if_neg hxy] at h1
          by_cases hxy2 : x = y
          · rw [if_pos hxy2] at h1
            subst hxy2
            by_cases hyz : strLt x z = true
            · rw [if_pos hyz]
            · rw [if_neg hyz] at h2
              by_cases hyz2 : x = z
              · subst hyz2
                rw [if_pos rfl] at h2
                rw [if_neg (bool_not_true_of_eq_false (strLt_irrefl x)), if_pos rfl]
                exact ih _ _ h1 h2
              · rw [if_neg hyz2] at h2
                cases h2
          · rw [if_neg hxy2] at h1
            cases h1

/-- The parts order is antisymmetric. -/
theorem partsLe_antisymm (a b : List PyString)
    (h1 : partsLe a b = true) (h2 : partsLe b a = true) : a = b := by
  induction a generalizing b with
  | nil =>
    cases b with
    | nil => rfl
    | cons y ys => cases h2
  | cons x xs ih =>
    cases b with
    | nil => cases h1
    | cons y ys =>
      rw [partsLe] at h1 h2
      by_cases hxy : strLt x y = true
      · rw [if_neg (bool_not_true_of_eq_false (strLt_asymm x y hxy))] at h2
        by_cases hyx : y = x
        · subst hyx
          rw [strLt_irrefl] at hxy
          cases hxy
        · rw [if_neg hyx] at h2
          cases h2
      · rw [if_neg hxy] at h1
        by_cases hxy2 : x = y
        · rw [if_pos hxy2] at h1
          subst hxy2
          have hyx : ¬(strLt x x = true) := bool_not_true_of_eq_false (strLt_irrefl x)
          rw [if_neg hyx, if_pos rfl] at h2
          rw [ih ys h1 h2]
        · rw [if_neg hxy2] at h1
          cases h1

/-- A list is `partsLe` any extension of itself. -/
theorem partsLe_self_append (xs t : List PyString) : partsLe xs (xs ++ t) = true := by
  induction xs with
  | nil => rfl
  | cons x xs ih =>
    rw [List.cons_append, partsLe,
        if_neg (bool_not_true_of_eq_false (strLt_irrefl x)), if_pos rfl]
    exact ih

/-- A prefix sorts no later than its extension. -/
theorem prefix_partsLe (a b : List PyString) (h : a <+: b) : partsLe a b = true := by
  obtain ⟨t, rfl⟩ := h
  exact partsLe_self_append a t

/-- Anything sorted between a path and its extension also extends the
path: the key geometric fact behind the adjacent-pairs check. -/
theorem partsLe_between_prefix (a b v : List PyString) (hab : a <+: b)
    (hav : partsLe a v = true) (hvb : partsLe v b = true) : a <+: v := by
  induction a generalizing b v with
  | nil => exact List.nil_prefix
  | cons x xs ih =>
    obtain ⟨t, rfl⟩ := hab
    cases v with
    | nil => cases hav
    | cons y vs =>
      rw [List.cons_append] at hvb
      rw [partsLe] at hav hvb
      by_cases hxy : strLt x y = true
      · by_cases hyx : strLt y x = true
        · rw [strLt_asymm x y hxy] at hyx
          cases hyx
        · rw [if_neg hyx] at hvb
          by_cases hyx2 : y = x
          · subst hyx2
            rw [strLt_irrefl] at hxy
            cases hxy
          · rw [if_neg hyx2] at hvb
            cases hvb
      · rw [if_neg hxy] at hav
        by_cases hxy2 : x = y
        · subst hxy2
          rw [if_pos rfl] at hav
          rw [if_neg (bool_not_true_of_eq_false (strLt_irrefl x)), if_pos rfl] at hvb
          have := ih (xs ++ t) vs ⟨t, rfl⟩ hav hvb
          exact (List.prefix_cons_inj x).mpr this
        · rw [if_neg hxy2] at hav
          cases hav

/-- A nonempty prefix shares its anchor with any extension. -/
theorem anchorLen_prefix_eq (a v : List PyString) (ha : a ≠ []) (hpre : a <+: v) :
    anchorLen v = anchorLen a := by
  obtain ⟨t, rfl⟩ := hpre
  cases a with
  | nil => exact absurd rfl ha
  | cons x xs => rfl

/-- In a sorted list that contains a strict-ancestor pair, some
*adjacent* pair already satisfies the `dir1 in [dir2, *dir2.parents]`
check - provided the ancestor is nonempty or no entry is absolute. -/
theorem sorted_adjacent_ancestor (S : List (List PyString))
    (hS : List.Pairwise (fun x y => partsLe x y = true) S)
    (a b : List PyString) (ha : a ∈ S) (hb : b ∈ S) (hne : a ≠ b)
    (hpre : a <+: b) (hanchor : anchorLen b ≤ a.length)
    (hmix : a ≠ [] ∨ ∀ v ∈ S, anchorLen v = 0) :
    (S.zip S.tail).any (fun p => inParentsOrSelf p.1 p.2) = true := by
  induction S with
  | nil => cases ha
  | cons x S' ih =>
    cases S' with
    | nil =>
      rw [List.mem_singleton] at ha hb
      exact absurd (ha.trans hb.symm) hne
    | cons y rest =>
      rw [List.pairwise_cons] at hS
      obtain ⟨hx, hrest⟩ := hS
      rcases List.mem_cons.mp ha with rfl | ha'
      · rcases List.mem_cons.mp hb with rfl | hb'
        · exact absurd rfl hne
        · -- a is the head; b further in; the adjacent pair (a, y) fires
          have hay : a <+: y := by
            rcases List.mem_cons.mp hb' with rfl | hb''
            · exact hpre
            · have h1 : partsLe a y = true := hx y (List.mem_cons_self y rest)
              have h2 : partsLe y b = true :=
                (List.pairwise_cons.mp hrest).1 b hb''
              exact partsLe_between_prefix a b y hpre h1 h2
          have hanchy : anchorLen y ≤ a.length := by
            rcases hmix with hne' | hall
            · rw [anchorLen_prefix_eq a y hne' hay]
              calc anchorLen a = anchorLen b := (anchorLen_prefix_eq a b hne' hpre).symm
                _ ≤ a.length := hanchor
            · rw [hall y (List.mem_cons_of_mem a (List.mem_cons_self y rest))]
              exact Nat.zero_le _
          rw [List.tail_cons, List.zip_cons_cons, List.any_cons]
          have : inParentsOrSelf a y = true := by
            unfold inParentsOrSelf
            rw [List.isPrefixOf_iff_prefix.mpr hay]
            simp [hanchy]
          rw [this]
          rfl
      · rcases List.mem_cons.mp hb with rfl | hb'
        · -- b is the head, a further in: contradiction with sortedness
          have h1 : partsLe b a = true := hx a ha'
          have h2 : partsLe a b = true := prefix_partsLe a b hpre
          exact absurd (partsLe_antisymm a b h2 h1) hne
        · have hmix' : a ≠ [] ∨ ∀ v ∈ y :: rest, anchorLen v = 0 := by
            rcases hmix with h | h
            · exact Or.inl h
            · exact Or.inr (fun v hv => h v (List.mem_cons_of_mem x hv))
          have hany := ih hrest ha' hb' hmix'
          rw [List.tail_cons] at hany
          rw [List.tail_cons, List.zip_cons_cons, List.any_cons, hany, Bool.or_true]

/-- C6 (amended): `_check_no_nested` raises the overlap error whenever
one scan root is a strict `pathlib` ancestor of another - regardless of
input order, adjacency, or trailing separators (`pathParts` drops them) -
provided the ancestor root is not the bare current-directory path while
some other root is absolute.  (In that remaining case sorting can place
an absolute root between `.` and the descendant and the adjacent-pairs
check misses the pair - see the counterexample.) -/
theorem check_no_nested_detects (subdirs : List PyString) (a b : PyString)
    (ha : a ∈ subdirs) (hb : b ∈ subdirs)
    (hanc : strictAncestor (pathParts a) (pathParts b))
    (hmix : pathParts a ≠ [] ∨ ∀ s ∈ subdirs, anchorLen (pathParts s) = 0) :
    _check_no_nested subdirs = true := by
  obtain ⟨hne, hpre, hanchor⟩ := hanc
  unfold _check_no_nested
  have hsorted :=
    @List.sorted_insertionSort (List PyString) (fun x y => partsLe x y = true)
      (fun x y => inferInstance) ⟨fun x y => partsLe_total x y⟩
      ⟨fun x y z => partsLe_trans x y z⟩ (subdirs.map pathParts)
  have hperm := List.perm_insertionSort (fun x y => partsLe x y = true)
    (subdirs.map pathParts)
  have haS : pathParts a ∈
      List.insertionSort (fun x y => partsLe x y = true) (subdirs.map pathParts) :=
    hperm.mem_iff.mpr (List.mem_map.mpr ⟨a, ha, rfl⟩)
  have hbS : pathParts b ∈
      List.insertionSort (fun x y => partsLe x y = true) (subdirs.map pathParts) :=
    hperm.mem_iff.mpr (List.mem_map.mpr ⟨b, hb, rfl⟩)
  have hmix' : pathParts a ≠ [] ∨ ∀ v ∈
      List.insertionSort (fun x y => partsLe x y = true) (subdirs.map pathParts),
      anchorLen v = 0 := by
    rcases hmix with h | h
    · exact Or.inl h
    · refine Or.inr (fun v hv => ?_)
      obtain ⟨s, hs, rfl⟩ := List.mem_map.mp (hperm.mem_iff.mp hv)
      exact h s hs
  exact sorted_adjacent_ancestor _ hsorted _ _ haS hbS hne hpre hanchor hmix'

/-- C6 counterexample: in `[".", "/etc", "x"]` the root `.` is a strict
`pathlib` ancestor of `x` (`PurePath(".") in PurePath("x").parents`),
yet `_check_no_nested` does not raise: the sort places `/etc` between
them, and the adjacent pairs (`.`,`/etc`) and (`/etc`,`x`) both pass. -/
theorem check_no_nested_counterexample :
    strictAncestor (pathParts ".".toList) (pathParts "x".toList) ∧
    _check_no_nested [".".toList, "/etc".toList, "x".toList] = false := by
  constructor
  · unfold strictAncestor
    refine ⟨by decide, ⟨["x".toList], by decide⟩, by decide⟩
  · rfl

/-- Witness for C6: nested roots given out of order and with a trailing
separator are detected. -/
theorem check_no_nested_detects_witness :
    _check_no_nested ["a/b/".toList, "c".toList, "a".toList] = true :=
  check_no_nested_detects ["a/b/".toList, "c".toList, "a".toList]
    "a".toList "a/b/".toList (by decide) (by decide)
    (by unfold strictAncestor
        exact ⟨by decide, ⟨["b".toList], by decide⟩, by decide⟩)
    (Or.inl (by decide))


/-! ### Claims C1 and C2: the concurrency of `get_statuses` -/

/-- Writing index `i` of a list shifts `countP` by the indicator of the
new element minus the indicator of the replaced one. -/
theorem countP_set_balance (p : TaskState → Bool) (l : List TaskState) (i : Nat)
    (t t' : TaskState) (h : l.get? i = some t) :
    (l.set i t').countP p + (if p t then 1 else 0)
      = l.countP p + (if p t' then 1 else 0) := by
  induction l generalizing i with
  | nil => simp at h
  | cons x xs ih =>
    cases i with
    | zero =>
      rw [List.get?_cons_zero] at h
      cases h
      simp only [List.set, List.countP_cons]
      omega
    | succ j =>
      rw [List.get?_cons_succ] at h
      simp only [List.set, List.countP_cons]
      have := ih j h
      omega

/-- Writing index `i` of a list shifts the sum of a mapped function by the
value at the new element minus the value at the replaced one. -/
theorem sum_map_set_balance (f : TaskState → Nat) (l : List TaskState) (i : Nat)
    (t t' : TaskState) (h : l.get? i = some t) :
    ((l.set i t').map f).sum + f t = (l.map f).sum + f t' := by
  induction l generalizing i with
  | nil => simp at h
  | cons x xs ih =>
    cases i with
    | zero =>
      rw [List.get?_cons_zero] at h
      cases h
      simp only [List.set, List.map_cons, List.sum_cons]
      omega
    | succ j =>
      rw [List.get?_cons_succ] at h
      simp only [List.set, List.map_cons, List.sum_cons]
      have := ih j h
      omega

/-- Writing back the element a position already holds is the identity. -/
theorem set_get?_self {α : Type} (l : List α) (i : Nat) (t : α)
    (h : l.get? i = some t) : l.set i t = l := by
  induction l generalizing i with
  | nil => simp
  | cons x xs ih =>
    cases i with
    | zero =>
      rw [List.get?_cons_zero] at h
      cases h
      simp [List.set]
    | succ j =>
      rw [List.get?_cons_succ] at h
      simp [List.set, ih j h]

/-- The gather disjunct of `PollInv` survives replacing a task that is
neither ended nor failed: if all tasks had ended the replaced task could
not exist, and a failed witness sits at a different index. -/
theorem gather_preserved (l : List TaskState) (i : Nat) (t t' : TaskState)
    (ht : l.get? i = some t) (hne : t.phase.ended = false) (hnf : ¬ t.phase = .failed)
    (h : (∀ u ∈ l, u.phase.ended = true) ∨ (∃ j u, l.get? j = some u ∧ u.phase = .failed)) :
    (∀ u ∈ l.set i t', u.phase.ended = true) ∨
    (∃ j u, (l.set i t').get? j = some u ∧ u.phase = .failed) := by
  rcases h with hall | ⟨j, u, hj, hu⟩
  · have := hall t (List.get?_mem ht)
    rw [hne] at this
    cases this
  · right
    refine ⟨j, u, ?_, hu⟩
    have hji : i ≠ j := by
      rintro rfl
      rw [ht] at hj
      cases hj
      exact hnf hu
    rw [List.get?_eq_getElem?] at hj ⊢
    rw [List.getElem?_set, if_neg hji]
    exact hj

/-- The invariant `PollInv` holds in the initial state of `get_statuses`. -/
theorem pollInv_init (examples : List Example) (scripts : List ClientScript) (n : Nat)
    (hlen : scripts.length = examples.length) :
    PollInv scripts examples.length n (initState examples scripts n) := by
  have hmem : ∀ t ∈ (initState examples scripts n).tasks, t.phase = TaskPhase.waiting := by
    intro t ht
    simp only [initState, List.mem_map] at ht
    obtain ⟨p, _, rfl⟩ := ht
    rfl
  refine ⟨?_, ?_, ?_, ?_, ?_, ?_, ?_, ?_⟩
  · have : countInFlight (initState examples scripts n) = 0 := by
      refine List.countP_eq_zero.mpr ?_
      intro t ht
      rw [hmem t ht]
      simp [TaskPhase.inFlight]
    rw [this]
    rfl
  · simp [initState, List.length_zip, hlen]
  · show ((examples.zip scripts).map _).map _ = scripts
    rw [List.map_map]
    have : ((fun t : TaskState => t.script) ∘ fun p : Example × ClientScript =>
        (⟨p.1, p.2, .waiting⟩ : TaskState)) = Prod.snd := rfl
    rw [this]
    exact List.map_snd_zip examples scripts (le_of_eq hlen)
  · intro t ht h
    rw [hmem t ht] at h
    cases h
  · intro t ht rest h
    rw [hmem t ht] at h
    cases h
  · intro t ht _ h
    rw [hmem t ht] at h
    cases h
  · intro t ht _ rest h
    rw [hmem t ht] at h
    cases h
  · intro h
    cases h

/-- Writing an element with the same indicator keeps `countP`. -/
theorem countP_set_same (p : TaskState → Bool) (l : List TaskState) (i : Nat)
    (t t' : TaskState) (h : l.get? i = some t) (he : p t = p t') :
    (l.set i t').countP p = l.countP p := by
  have hb := countP_set_balance p l i t t' h
  rw [he] at hb
  omega

/-- Writing an element whose indicator turns on increments `countP`. -/
theorem countP_set_up (p : TaskState → Bool) (l : List TaskState) (i : Nat)
    (t t' : TaskState) (h : l.get? i = some t) (h1 : p t = false) (h2 : p t' = true) :
    (l.set i t').countP p = l.countP p + 1 := by
  have hb := countP_set_balance p l i t t' h
  rw [h1, h2] at hb
  simp at hb
  omega

/-- Writing an element whose indicator turns off decrements `countP`. -/
theorem countP_set_down (p : TaskState → Bool) (l : List TaskState) (i : Nat)
    (t t' : TaskState) (h : l.get? i = some t) (h1 : p t = true) (h2 : p t' = false) :
    (l.set i t').countP p + 1 = l.countP p := by
  have hb := countP_set_balance p l i t t' h
  rw [h1, h2] at hb
  simp at hb
  omega

/-- Writing index `i` with known mapped values shifts the mapped sum
accordingly. -/
theorem sum_map_set_shift (f : TaskState → Nat) (l : List TaskState) (i : Nat)
    (t t' : TaskState) (h : l.get? i = some t) (a b : Nat)
    (h1 : f t = a) (h2 : f t' = b) :
    ((l.set i t').map f).sum + a = (l.map f).sum + b := by
  have hb := sum_map_set_balance f l i t t' h
  rw [h1, h2] at hb
  exact hb

/-- A pointwise property of all tasks survives `set` when the new element
satisfies it. -/
theorem taskPred_set (P : TaskState → Prop) (l : List TaskState) (i : Nat) (t' : TaskState)
    (hall : ∀ u ∈ l, P u) (hnew : P t') : ∀ u ∈ l.set i t', P u := by
  intro u hu
  rcases List.mem_or_eq_of_mem_set hu with hu | rfl
  · exact hall u hu
  · exact hnew

/-- The invariant `PollInv` is preserved by every transition of the
`get_statuses` system. -/
theorem pollInv_step (scripts : List ClientScript) (m n : Nat) (s s' : PollState)
    (hstep : PollStep s s') (hinv : PollInv scripts m n s) : PollInv scripts m n s' := by
  cases hstep with
  | acquire i t ht hw hs =>
    have tmem := List.get?_mem ht
    have hmap : (s.tasks.set i { t with phase := .submitting }).map (fun u => u.script)
        = s.tasks.map (fun u => u.script) := by
      rw [List.map_set]
      exact set_get?_self _ i _ (by rw [List.get?_map, ht]; rfl)
    refine ⟨?_, ?_, ?_, ?_, ?_, ?_, ?_, ?_⟩
    · have hsem := hinv.sem_flight
      have hb := countP_set_up (fun u => u.phase.inFlight) s.tasks i t
        { t with phase := .submitting } ht (by simp only [hw]; rfl) rfl
      show s.sem - 1 + countInFlight ⟨s.sem - 1, s.tasks.set i { t with phase := .submitting }, s.gatherDone⟩ = n
      simp only [countInFlight] at hsem ⊢
      omega
    · show (s.tasks.set i { t with phase := .submitting }).length = m
      rw [List.length_set]
      exact hinv.len
    · show (s.tasks.set i { t with phase := .submitting }).map (fun u => u.script) = scripts
      rw [hmap]
      exact hinv.scripts_eq
    · exact taskPred_set _ _ i _ (fun u hu => hinv.done_terminal u hu)
        (fun h => by cases h)
    · exact taskPred_set _ _ i _ (fun u hu => hinv.poll_suffix u hu)
        (fun rest h => by cases h)
    · exact taskPred_set _ _ i _ (fun u hu => hinv.faultless_ok u hu)
        (fun _ h => by cases h)
    · exact taskPred_set _ _ i _ (fun u hu => hinv.term_stops u hu)
        (fun _ rest h => by cases h)
    · exact fun hg => gather_preserved s.tasks i t _ ht (by rw [hw]; rfl)
        (by rw [hw]; exact fun h => by cases h) (hinv.gather_done hg)
  | submitOk i t pid ht hp hr =>
    have tmem := List.get?_mem ht
    have hmap : (s.tasks.set i { t with ex := { t.ex with pipeline_id := pid }, phase := .polling t.script.statuses }).map (fun u => u.script)
        = s.tasks.map (fun u => u.script) := by
      rw [List.map_set]
      exact set_get?_self _ i _ (by rw [List.get?_map, ht]; rfl)
    refine ⟨?_, ?_, ?_, ?_, ?_, ?_, ?_, ?_⟩
    · have hsem := hinv.sem_flight
      have hb := countP_set_same (fun u => u.phase.inFlight) s.tasks i t
        { t with ex := { t.ex with pipeline_id := pid }, phase := .polling t.script.statuses } ht (by simp only [hp]; rfl)
      show s.sem + countInFlight ⟨s.sem, s.tasks.set i { t with ex := { t.ex with pipeline_id := pid }, phase := .polling t.script.statuses }, s.gatherDone⟩ = n
      dsimp only at hb
      simp only [countInFlight] at hsem ⊢
      omega
    · show (s.tasks.set i { t with ex := { t.ex with pipeline_id := pid }, phase := .polling t.script.statuses }).length = m
      rw [List.length_set]
      exact hinv.len
    · show (s.tasks.set i { t with ex := { t.ex with pipeline_id := pid }, phase := .polling t.script.statuses }).map (fun u => u.script) = scripts
      rw [hmap]
      exact hinv.scripts_eq
    · exact taskPred_set _ _ i _ (fun u hu => hinv.done_terminal u hu)
        (fun h => by cases h)
    · refine taskPred_set _ _ i _ (fun u hu => hinv.poll_suffix u hu) ?_
      intro rest h
      injection h with h
      subst h
      exact List.suffix_refl _
    · exact taskPred_set _ _ i _ (fun u hu => hinv.faultless_ok u hu)
        (fun _ h => by cases h)
    · refine taskPred_set _ _ i _ (fun u hu => hinv.term_stops u hu) ?_
      intro hterm rest h
      injection h with h
      subst h
      simp only [ClientScript.terminates, hr, Bool.false_or] at hterm
      exact List.any_eq_true.mp hterm
    · exact fun hg => gather_preserved s.tasks i t _ ht (by rw [hp]; rfl)
        (by rw [hp]; exact fun h => by cases h) (hinv.gather_done hg)
  | submitExn i t ht hp hr =>
    have tmem := List.get?_mem ht
    have hmap : (s.tasks.set i { t with phase := .failed }).map (fun u => u.script)
        = s.tasks.map (fun u => u.script) := by
      rw [List.map_set]
      exact set_get?_self _ i _ (by rw [List.get?_map, ht]; rfl)
    refine ⟨?_, ?_, ?_, ?_, ?_, ?_, ?_, ?_⟩
    · have hsem := hinv.sem_flight
      have hb := countP_set_down (fun u => u.phase.inFlight) s.tasks i t
        { t with phase := .failed } ht (by simp only [hp]; rfl) rfl
      show s.sem + 1 + countInFlight ⟨s.sem + 1, s.tasks.set i { t with phase := .failed }, s.gatherDone⟩ = n
      simp only [countInFlight] at hsem ⊢
      omega
    · show (s.tasks.set i { t with phase := .failed }).length = m
      rw [List.length_set]
      exact hinv.len
    · show (s.tasks.set i { t with phase := .failed }).map (fun u => u.script) = scripts
      rw [hmap]
      exact hinv.scripts_eq
    · exact taskPred_set _ _ i _ (fun u hu => hinv.done_terminal u hu)
        (fun h => by cases h)
    · exact taskPred_set _ _ i _ (fun u hu => hinv.poll_suffix u hu)
        (fun rest h => by cases h)
    · refine taskPred_set _ _ i _ (fun u hu => hinv.faultless_ok u hu) ?_
      intro hfl _
      simp [ClientScript.faultless, hr] at hfl
    · exact taskPred_set _ _ i _ (fun u hu => hinv.term_stops u hu)
        (fun _ rest h => by cases h)
    · exact fun hg => gather_preserved s.tasks i t _ ht (by rw [hp]; rfl)
        (by rw [hp]; exact fun h => by cases h) (hinv.gather_done hg)
  | pollContinue i t st rest ht hp hst =>
    have tmem := List.get?_mem ht
    have hmap : (s.tasks.set i { t with phase := .polling rest }).map (fun u => u.script)
        = s.tasks.map (fun u => u.script) := by
      rw [List.map_set]
      exact set_get?_self _ i _ (by rw [List.get?_map, ht]; rfl)
    refine ⟨?_, ?_, ?_, ?_, ?_, ?_, ?_, ?_⟩
    · have hsem := hinv.sem_flight
      have hb := countP_set_same (fun u => u.phase.inFlight) s.tasks i t
        { t with phase := .polling rest } ht (by simp only [hp]; rfl)
      show s.sem + countInFlight ⟨s.sem, s.tasks.set i { t with phase := .polling rest }, s.gatherDone⟩ = n
      simp only [countInFlight] at hsem ⊢
      omega
    · show (s.tasks.set i { t with phase := .polling rest }).length = m
      rw [List.length_set]
      exact hinv.len
    · show (s.tasks.set i { t with phase := .polling rest }).map (fun u => u.script) = scripts
      rw [hmap]
      exact hinv.scripts_eq
    · exact taskPred_set _ _ i _ (fun u hu => hinv.done_terminal u hu)
        (fun h => by cases h)
    · refine taskPred_set _ _ i _ (fun u hu => hinv.poll_suffix u hu) ?_
      intro rest' h
      injection h with h
      subst h
      exact (List.suffix_cons _ _).trans (hinv.poll_suffix t tmem _ hp)
    · exact taskPred_set _ _ i _ (fun u hu => hinv.faultless_ok u hu)
        (fun _ h => by cases h)
    · refine taskPred_set _ _ i _ (fun u hu => hinv.term_stops u hu) ?_
      intro hterm rest' h
      injection h with h
      subst h
      obtain ⟨x, hx, hstop⟩ := hinv.term_stops t tmem hterm _ hp
      rcases List.mem_cons.mp hx with rfl | hx'
      · simp [CallResult.stopsNow, hst] at hstop
      · exact ⟨x, hx', hstop⟩
    · exact fun hg => gather_preserved s.tasks i t _ ht (by rw [hp]; rfl)
        (by rw [hp]; exact fun h => by cases h) (hinv.gather_done hg)
  | pollDone i t st rest ht hp hst =>
    have tmem := List.get?_mem ht
    have hmap : (s.tasks.set i { t with ex := { t.ex with status := st }, phase := .done }).map (fun u => u.script)
        = s.tasks.map (fun u => u.script) := by
      rw [List.map_set]
      exact set_get?_self _ i _ (by rw [List.get?_map, ht]; rfl)
    refine ⟨?_, ?_, ?_, ?_, ?_, ?_, ?_, ?_⟩
    · have hsem := hinv.sem_flight
      have hb := countP_set_down (fun u => u.phase.inFlight) s.tasks i t
        { t with ex := { t.ex with status := st }, phase := .done } ht
        (by simp only [hp]; rfl) rfl
      show s.sem + 1 + countInFlight ⟨s.sem + 1, s.tasks.set i { t with ex := { t.ex with status := st }, phase := .done }, s.gatherDone⟩ = n
      dsimp only at hb
      simp only [countInFlight] at hsem ⊢
      omega
    · show (s.tasks.set i { t with ex := { t.ex with status := st }, phase := .done }).length = m
      rw [List.length_set]
      exact hinv.len
    · show (s.tasks.set i { t with ex := { t.ex with status := st }, phase := .done }).map (fun u => u.script) = scripts
      rw [hmap]
      exact hinv.scripts_eq
    · exact taskPred_set _ _ i _ (fun u hu => hinv.done_terminal u hu)
        (fun _ => hst)
    · exact taskPred_set _ _ i _ (fun u hu => hinv.poll_suffix u hu)
        (fun rest' h => by cases h)
    · exact taskPred_set _ _ i _ (fun u hu => hinv.faultless_ok u hu)
        (fun _ h => by cases h)
    · exact taskPred_set _ _ i _ (fun u hu => hinv.term_stops u hu)
        (fun _ rest' h => by cases h)
    · exact fun hg => gather_preserved s.tasks i t _ ht (by rw [hp]; rfl)
        (by rw [hp]; exact fun h => by cases h) (hinv.gather_done hg)
  | pollExn i t rest ht hp =>
    have tmem := List.get?_mem ht
    have hmap : (s.tasks.set i { t with phase := .failed }).map (fun u => u.script)
        = s.tasks.map (fun u => u.script) := by
      rw [List.map_set]
      exact set_get?_self _ i _ (by rw [List.get?_map, ht]; rfl)
    refine ⟨?_, ?_, ?_, ?_, ?_, ?_, ?_, ?_⟩
    · have hsem := hinv.sem_flight
      have hb := countP_set_down (fun u => u.phase.inFlight) s.tasks i t
        { t with phase := .failed } ht (by simp only [hp]; rfl) rfl
      show s.sem + 1 + countInFlight ⟨s.sem + 1, s.tasks.set i { t with phase := .failed }, s.gatherDone⟩ = n
      simp only [countInFlight] at hsem ⊢
      omega
    · show (s.tasks.set i { t with phase := .failed }).length = m
      rw [List.length_set]
      exact hinv.len
    · show (s.tasks.set i { t with phase := .failed }).map (fun u => u.script) = scripts
      rw [hmap]
      exact hinv.scripts_eq
    · exact taskPred_set _ _ i _ (fun u hu => hinv.done_terminal u hu)
        (fun h => by cases h)
    · exact taskPred_set _ _ i _ (fun u hu => hinv.poll_suffix u hu)
        (fun rest' h => by cases h)
    · refine taskPred_set _ _ i _ (fun u hu => hinv.faultless_ok u hu) ?_
      intro hfl _
      have h2 : CallResult.exn ∈ t.script.statuses :=
        (hinv.poll_suffix t tmem _ hp).subset (List.mem_cons_self _ _)
      simp only [ClientScript.faultless, Bool.and_eq_true] at hfl
      have := List.all_eq_true.mp hfl.1.2 _ h2
      simp at this
    · exact taskPred_set _ _ i _ (fun u hu => hinv.term_stops u hu)
        (fun _ rest' h => by cases h)
    · exact fun hg => gather_preserved s.tasks i t _ ht (by rw [hp]; rfl)
        (by rw [hp]; exact fun h => by cases h) (hinv.gather_done hg)
  | gatherFinish hall hg =>
    refine ⟨hinv.sem_flight, hinv.len, hinv.scripts_eq, hinv.done_terminal,
      hinv.poll_suffix, hinv.faultless_ok, hinv.term_stops, ?_⟩
    exact fun _ => Or.inl hall
  | gatherExn i t ht hf hg =>
    refine ⟨hinv.sem_flight, hinv.len, hinv.scripts_eq, hinv.done_terminal,
      hinv.poll_suffix, hinv.faultless_ok, hinv.term_stops, ?_⟩
    exact fun _ => Or.inr ⟨i, t, ht, hf⟩

/-- The invariant `PollInv` holds in every state reachable from the start
of a `get_statuses` call. -/
theorem pollReach_inv (examples : List Example) (scripts : List ClientScript) (n : Nat)
    (s : PollState) (hlen : scripts.length = examples.length)
    (h : PollReach examples scripts n s) :
    PollInv scripts examples.length n s := by
  induction h with
  | refl => exact pollInv_init examples scripts n hlen
  | tail _ hstep ih => exact pollInv_step scripts examples.length n _ _ hstep ih

/-- A task past the semaphore (submitting or polling) can always take a
step, provided every script terminates: the poll-suffix and stopping
invariants rule out a polling task with an exhausted script. -/
theorem inflight_task_steps (scripts : List ClientScript) (m n : Nat) (s : PollState)
    (hinv : PollInv scripts m n s)
    (hterm : ∀ c ∈ scripts, c.terminates = true)
    (i : Nat) (u : TaskState) (hu : s.tasks.get? i = some u)
    (hif : u.phase.inFlight = true) : ∃ s', PollStep s s' := by
  have humem := List.get?_mem hu
  have huterm : u.script.terminates = true := by
    refine hterm _ ?_
    rw [← hinv.scripts_eq]
    exact List.mem_map_of_mem _ humem
  cases hph : u.phase with
  | waiting => rw [hph] at hif; simp [TaskPhase.inFlight] at hif
  | submitting =>
    cases hsub : u.script.submit with
    | ok pid => exact ⟨_, PollStep.submitOk s i u pid hu hph hsub⟩
    | exn => exact ⟨_, PollStep.submitExn s i u hu hph hsub⟩
  | polling rest =>
    obtain ⟨x, hx, hstop⟩ := hinv.term_stops u humem huterm rest hph
    cases rest with
    | nil => cases hx
    | cons y rest' =>
      cases y with
      | ok st =>
        cases hyp : st.isPolling with
        | true => exact ⟨_, PollStep.pollContinue s i u st rest' hu hph hyp⟩
        | false => exact ⟨_, PollStep.pollDone s i u st rest' hu hph hyp⟩
      | exn => exact ⟨_, PollStep.pollExn s i u rest' hu hph⟩
  | done => rw [hph] at hif; simp [TaskPhase.inFlight] at hif
  | failed => rw [hph] at hif; simp [TaskPhase.inFlight] at hif

/-- No deadlock: from every reachable state that is not yet fully ended
with the gather completed, some coroutine can take a step. -/
theorem pollReach_progress (examples : List Example) (scripts : List ClientScript)
    (n : Nat) (s : PollState)
    (hlen : scripts.length = examples.length) (hn : 1 ≤ n)
    (hterm : ∀ c ∈ scripts, c.terminates = true)
    (hreach : PollReach examples scripts n s)
    (hnot : ¬(allEnded s = true ∧ s.gatherDone = true)) : ∃ s', PollStep s s' := by
  have hinv := pollReach_inv examples scripts n s hlen hreach
  by_cases hae : allEnded s = true
  · have hg : s.gatherDone = false := by
      cases hgd : s.gatherDone
      · rfl
      · exact absurd ⟨hae, hgd⟩ hnot
    exact ⟨_, PollStep.gatherFinish s (List.all_eq_true.mp hae) hg⟩
  · obtain ⟨t, htmem, hte⟩ : ∃ t ∈ s.tasks, ¬ t.phase.ended = true := by
      have hae' : allEnded s = false := by
        cases h : allEnded s
        · rfl
        · exact absurd h hae
      simpa [allEnded] using hae'
    obtain ⟨i, hi⟩ := List.mem_iff_get?.mp htmem
    cases hph : t.phase with
    | waiting =>
      by_cases hsem : s.sem = 0
      · have hpos : 0 < countInFlight s := by
          have := hinv.sem_flight
          omega
        simp only [countInFlight] at hpos
        obtain ⟨u, humem, huf⟩ := List.countP_pos.mp hpos
        obtain ⟨j, hj⟩ := List.mem_iff_get?.mp humem
        exact inflight_task_steps scripts examples.length n s hinv hterm j u hj huf
      · exact ⟨_, PollStep.acquire s i t hi hph hsem⟩
    | submitting =>
      exact inflight_task_steps scripts examples.length n s hinv hterm i t hi
        (by rw [hph]; rfl)
    | polling rest =>
      exact inflight_task_steps scripts examples.length n s hinv hterm i t hi
        (by rw [hph]; rfl)
    | done => exact absurd (by rw [hph]; rfl : t.phase.ended = true) hte
    | failed => exact absurd (by rw [hph]; rfl : t.phase.ended = true) hte

/-- Every transition of the `get_statuses` system strictly decreases the
termination measure, so every maximal execution is finite. -/
theorem pollStep_measure (s s' : PollState) (h : PollStep s s') :
    s'.measure < s.measure := by
  cases h with
  | acquire i t ht hw hs =>
    have hb := sum_map_set_shift TaskState.weight s.tasks i t
      { t with phase := .submitting } ht
      (3 + t.script.statuses.length) (2 + t.script.statuses.length)
      (by simp only [TaskState.weight, hw]) rfl
    simp only [PollState.measure]
    omega
  | submitOk i t pid ht hp hr =>
    have hb := sum_map_set_shift TaskState.weight s.tasks i t
      { t with ex := { t.ex with pipeline_id := pid }, phase := .polling t.script.statuses } ht
      (2 + t.script.statuses.length) (1 + t.script.statuses.length)
      (by simp only [TaskState.weight, hp]) rfl
    dsimp only at hb
    simp only [PollState.measure]
    omega
  | submitExn i t ht hp hr =>
    have hb := sum_map_set_shift TaskState.weight s.tasks i t
      { t with phase := .failed } ht
      (2 + t.script.statuses.length) 0
      (by simp only [TaskState.weight, hp]) rfl
    simp only [PollState.measure]
    omega
  | pollContinue i t st rest ht hp hst =>
    have hb := sum_map_set_shift TaskState.weight s.tasks i t
      { t with phase := .polling rest } ht
      (2 + rest.length) (1 + rest.length)
      (by simp only [TaskState.weight, hp]; simp [List.length_cons]; omega) rfl
    simp only [PollState.measure]
    omega
  | pollDone i t st rest ht hp hst =>
    have hb := sum_map_set_shift TaskState.weight s.tasks i t
      { t with ex := { t.ex with status := st }, phase := .done } ht
      (2 + rest.length) 0
      (by simp only [TaskState.weight, hp]; simp [List.length_cons]; omega) rfl
    dsimp only at hb
    simp only [PollState.measure]
    omega
  | pollExn i t rest ht hp =>
    have hb := sum_map_set_shift TaskState.weight s.tasks i t
      { t with phase := .failed } ht
      (2 + rest.length) 0
      (by simp only [TaskState.weight, hp]; simp [List.length_cons]; omega) rfl
    simp only [PollState.measure]
    omega
  | gatherFinish hall hg =>
    simp [PollState.measure, hg]
  | gatherExn i t ht hf hg =>
    simp [PollState.measure, hg]

/-- C1: for every batch of `M` examples and concurrency limit `N >= 1`
with a fault-free scripted backend, in every state reachable during
`get_statuses` at most `N` per-example `_update_example_status` calls are
in flight past the semaphore, and when the gather completes all `M`
tasks are done with a terminal (non-polling) status stored in
`example.status` (helper.py 160-187, 449-487). -/
theorem get_statuses_bounded_concurrency (examples : List Example)
    (scripts : List ClientScript) (n : Nat) (s : PollState)
    (hlen : scripts.length = examples.length) (_hn : 1 ≤ n)
    (hok : ∀ c ∈ scripts, c.faultless = true)
    (hreach : PollReach examples scripts n s) :
    countInFlight s ≤ n ∧
    (s.gatherDone = true →
      s.tasks.length = examples.length ∧
      ∀ t ∈ s.tasks, t.phase = .done ∧ t.ex.status.isPolling = false) := by
  have hinv := pollReach_inv examples scripts n s hlen hreach
  constructor
  · have := hinv.sem_flight
    omega
  · intro hg
    refine ⟨hinv.len, ?_⟩
    intro t ht
    have hfl : t.script.faultless = true := by
      refine hok _ ?_
      rw [← hinv.scripts_eq]
      exact List.mem_map_of_mem _ ht
    have hnf := hinv.faultless_ok t ht hfl
    rcases hinv.gather_done hg with hall | ⟨j, u, hj, hu⟩
    · have hend := hall t ht
      have hdone : t.phase = .done := by
        cases hph : t.phase with
        | done => rfl
        | failed => exact absurd hph hnf
        | waiting => rw [hph] at hend; simp [TaskPhase.ended] at hend
        | submitting => rw [hph] at hend; simp [TaskPhase.ended] at hend
        | polling rest => rw [hph] at hend; simp [TaskPhase.ended] at hend
      exact ⟨hdone, hinv.done_terminal t ht hdone⟩
    · have hufl : u.script.faultless = true := by
        refine hok _ ?_
        rw [← hinv.scripts_eq]
        exact List.mem_map_of_mem _ (List.get?_mem hj)
      exact absurd hu (hinv.faultless_ok u (List.get?_mem hj) hufl)

/-- Witness for C1 at the concrete initial state of a two-example batch
with concurrency 1. -/
theorem get_statuses_bounded_concurrency_witness :
    countInFlight (initState c1examples c1scripts 1) ≤ 1 ∧
    ((initState c1examples c1scripts 1).gatherDone = true →
      (initState c1examples c1scripts 1).tasks.length = c1examples.length ∧
      ∀ t ∈ (initState c1examples c1scripts 1).tasks,
        t.phase = .done ∧ t.ex.status.isPolling = false) :=
  get_statuses_bounded_concurrency c1examples c1scripts 1 _ rfl (by decide) (by decide)
    Relation.ReflTransGen.refl

/-- C2 (amended): with terminating backend scripts, one task's exception
does not cancel or block its siblings: from every reachable state not yet
fully ended with the gather completed some task can still step (no
deadlock), every step strictly decreases a finite measure (so every
maximal execution terminates), and every task with a fault-free script
that has ended is done with its terminal status stored.  The batch call
itself may complete earlier, by propagating the first exception (see the
counterexample). -/
theorem get_statuses_failure_isolation (examples : List Example)
    (scripts : List ClientScript) (n : Nat)
    (hlen : scripts.length = examples.length) (hn : 1 ≤ n)
    (hterm : ∀ c ∈ scripts, c.terminates = true) :
    (∀ s, PollReach examples scripts n s →
       ¬(allEnded s = true ∧ s.gatherDone = true) → ∃ s', PollStep s s') ∧
    (∀ s s', PollStep s s' → s'.measure < s.measure) ∧
    (∀ s, PollReach examples scripts n s → ∀ t ∈ s.tasks,
       t.script.faultless = true → t.phase.ended = true →
       t.phase = .done ∧ t.ex.status.isPolling = false) := by
  refine ⟨?_, ?_, ?_⟩
  · exact fun s hreach hnot =>
      pollReach_progress examples scripts n s hlen hn hterm hreach hnot
  · exact fun s s' h => pollStep_measure s s' h
  · intro s hreach t ht hfl hend
    have hinv := pollReach_inv examples scripts n s hlen hreach
    have hnf := hinv.faultless_ok t ht hfl
    have hdone : t.phase = .done := by
      cases hph : t.phase with
      | done => rfl
      | failed => exact absurd hph hnf
      | waiting => rw [hph] at hend; simp [TaskPhase.ended] at hend
      | submitting => rw [hph] at hend; simp [TaskPhase.ended] at hend
      | polling rest => rw [hph] at hend; simp [TaskPhase.ended] at hend
    exact ⟨hdone, hinv.done_terminal t ht hdone⟩

/-- Counterexample to C2 as stated: with five examples whose job #3
raises during submit and concurrency 2, a reachable state has the gather
completed (`tqdm.gather` propagates the first exception) while task #1
has not ended - the batch call does not wait for every per-example task
to end. -/
theorem get_statuses_gather_early_counterexample :
    PollReach c2examples c2scripts 2 c2final ∧
    c2final.gatherDone = true ∧
    (c2final.tasks.get? 0).map (fun t => t.phase.ended) = some false := by
  refine ⟨?_, rfl, rfl⟩
  have h1 : PollStep (initState c2examples c2scripts 2)
      ⟨1, [c2task c2ok .waiting, c2task c2ok .waiting, c2task c2bad .submitting,
           c2task c2ok .waiting, c2task c2ok .waiting], false⟩ :=
    PollStep.acquire (initState c2examples c2scripts 2) 2 (c2task c2bad .waiting)
      rfl rfl (by decide)
  have h2 : PollStep
      ⟨1, [c2task c2ok .waiting, c2task c2ok .waiting, c2task c2bad .submitting,
           c2task c2ok .waiting, c2task c2ok .waiting], false⟩
      ⟨2, [c2task c2ok .waiting, c2task c2ok .waiting, c2task c2bad .failed,
           c2task c2ok .waiting, c2task c2ok .waiting], false⟩ :=
    PollStep.submitExn _ 2 (c2task c2bad .submitting) rfl rfl rfl
  have h3 : PollStep
      ⟨2, [c2task c2ok .waiting, c2task c2ok .waiting, c2task c2bad .failed,
           c2task c2ok .waiting, c2task c2ok .waiting], false⟩ c2final :=
    PollStep.gatherExn _ 2 (c2task c2bad .failed) rfl rfl rfl
  exact Relation.ReflTransGen.head h1
    (Relation.ReflTransGen.head h2 (Relation.ReflTransGen.single h3))

/-- Witness for C2: the concrete five-example batch with the faulty job
#3 satisfies the hypotheses, and its initial state can step. -/
theorem get_statuses_failure_isolation_witness :
    (1 : Nat) ≤ 2 ∧ ∃ s', PollStep (initState c2examples c2scripts 2) s' :=
  ⟨by decide,
    (get_statuses_failure_isolation c2examples c2scripts 2 rfl (by decide) (by decide)).1
      (initState c2examples c2scripts 2) Relation.ReflTransGen.refl (by decide)⟩
